import Mathlib

/-!
Verification of the core selection/format logic of the DatePicker widget
(src/Datepicker.js).  The JavaScript source is shallowly embedded: pure
helper functions become Lean functions, the mutable widget object becomes an
explicit state record, and every operation returns the updated state together
with the list of notification-callback events it fires.  JS `Date` values are
modelled as normalized civil date/time records; the `new Date(y, m, d, h, min)`
constructor's field-overflow normalization is modelled by explicit
carry/borrow arithmetic on months and days, and `Date` comparison (epoch
order) is modelled by a minutes-since-epoch key computed with the standard
civil-from-days algorithm.
-/

namespace Datepicker

/-! ## Calendar arithmetic: the JS `Date` model -/

/-- A JS `Date` value ( local time, minute granularity — the widget never sets
seconds).  Values produced by the constructors below are always normalized:
`1 ≤ month ≤ 12`, `1 ≤ day ≤ daysInMonth year month`, `hour < 24`,
`minute < 60`. -/
structure JDate where
  year : Int
  month : Nat
  day : Nat
  hour : Nat
  minute : Nat
  deriving DecidableEq, Repr

/-- Proleptic-Gregorian leap-year test, as used by JS `Date`. -/
def isLeapYear (y : Int) : Bool :=
  (y % 4 == 0 && y % 100 != 0) || y % 400 == 0

/-- Number of days of month `m` (1..12) of year `y`. -/
def daysInMonth (y : Int) (m : Nat) : Nat :=
  match m with
  | 1 => 31 | 2 => if isLeapYear y then 29 else 28
  | 3 => 31 | 4 => 30 | 5 => 31 | 6 => 30
  | 7 => 31 | 8 => 31 | 9 => 30 | 10 => 31
  | 11 => 30 | _ => 31

/-- The month before `(y, m)`. -/
def prevMonth (y : Int) (m : Nat) : Int × Nat :=
  if m ≤ 1 then (y - 1, 12) else (y, m - 1)

/-- The month after `(y, m)`. -/
def nextMonth (y : Int) (m : Nat) : Int × Nat :=
  if m ≥ 12 then (y + 1, 1) else (y, m + 1)

/-- Day-of-month borrow/carry normalization, the semantics of the JS `Date`
day field (e.g. `new Date(2024, 0, 0)` is Dec 31 2023, `new Date(2024, 0, 32)`
is Feb 1 2024).  Structural recursion on `fuel` keeps the function
kernel-reducible; each step moves `d` at least 28 closer to range, so
`d.natAbs + 2` steps (see `normDayFuel`) always suffice. -/
def normDayGo : Nat → Int → Nat → Int → Int × Nat × Nat
  | 0, y, m, _ => (y, m, 1)
  | fuel + 1, y, m, d =>
    if d < 1 then
      let (y', m') := prevMonth y m
      normDayGo fuel y' m' (d + daysInMonth y' m')
    else if d > (daysInMonth y m : Int) then
      normDayGo fuel (nextMonth y m).1 (nextMonth y m).2 (d - daysInMonth y m)
    else
      (y, m, d.toNat)

def normDayFuel (d : Int) : Nat := d.natAbs + 2

def normDay (y : Int) (m : Nat) (d : Int) : Int × Nat × Nat :=
  normDayGo (normDayFuel d) y m d

/-- The JS constructor `new Date(y, mi, d, h, min)` (month index `mi` is
0-based and may be any integer; all fields normalize by carrying).  In the
widget, hours/minutes passed here are already in range, but the model carries
overflow faithfully via whole-day offsets. -/
def mkDate (y mi d h min : Int) : JDate :=
  let total : Int := h * 60 + min
  let dayOff : Int := total / 1440
  let rem : Int := total % 1440
  let ym : Int := y + mi / 12
  let m0 : Int := mi % 12
  let (ny, nm, nd) := normDay ym (m0.toNat + 1) (d + dayOff)
  ⟨ny, nm, nd, (rem / 60).toNat, (rem % 60).toNat⟩

/-- `startOfDay`: `new Date(getFullYear(), getMonth(), getDate())`. -/
def startOfDay (d : JDate) : JDate :=
  ⟨d.year, d.month, d.day, 0, 0⟩

/-- A `JDate` is valid when its fields are normalized. -/
def ValidDate (d : JDate) : Prop :=
  1 ≤ d.month ∧ d.month ≤ 12 ∧ 1 ≤ d.day ∧ d.day ≤ daysInMonth d.year d.month
    ∧ d.hour ≤ 23 ∧ d.minute ≤ 59

instance (d : JDate) : Decidable (ValidDate d) := by
  unfold ValidDate; infer_instance

/-- Days since the Unix epoch of a civil date (Howard Hinnant's
`days_from_civil`, the arithmetic underlying JS epoch timestamps).  Linear in
`d`, so it is meaningful for out-of-range day numbers as well. -/
def daysFromCivil (y : Int) (m : Nat) (d : Int) : Int :=
  let y' : Int := if m ≤ 2 then y - 1 else y
  let era : Int := y' / 400
  let yoe : Int := y' - era * 400
  let mp : Nat := (m + 9) % 12
  let doy : Int := (153 * mp + 2) / 5 + d - 1
  let doe : Int := yoe * 365 + yoe / 4 - yoe / 100 + doy
  era * 146097 + doe - 719468

/-- Minutes since the epoch: the comparison key of a JS `Date` (the widget
only ever sets hours/minutes).  `a < b` on two JS `Date`s is
`epochMinutes a < epochMinutes b`. -/
def epochMinutes (d : JDate) : Int :=
  daysFromCivil d.year d.month d.day * 1440 + d.hour * 60 + d.minute

/-- `getDay()`: day of week, 0 = Sunday (1970-01-01 was a Thursday). -/
def dayOfWeek (d : JDate) : Nat :=
  ((daysFromCivil d.year d.month d.day + 4) % 7).toNat

/-- `addDays(baseDate, days)`: drops the time-of-day, then lets the day
field overflow/underflow normalize. -/
def addDays (base : JDate) (days : Int) : JDate :=
  -- new Date(y, m, date); d.setDate(d.getDate() + days)
  let (ny, nm, nd) := normDay base.year base.month ((base.day : Int) + days)
  ⟨ny, nm, nd, 0, 0⟩

/-- `startOfMonth(date)`: `new Date(y, m, 1)`. -/
def startOfMonth (d : JDate) : JDate :=
  ⟨d.year, d.month, 1, 0, 0⟩

/-- `startOfWeek(date, firstDayOfWeek)`. -/
def startOfWeek (d : JDate) (firstDayOfWeek : Nat) : JDate :=
  let day := dayOfWeek d
  let diff : Int := (((day : Int) - firstDayOfWeek + 7) % 7)
  addDays d (-diff)

/-- `areSameCalendarDate(a, b)` on valid dates. -/
def areSameCalendarDate (a b : JDate) : Bool :=
  a.year == b.year && a.month == b.month && a.day == b.day

/-! ## `clampMinuteToStep` (claim C2) -/

/-- `clampMinuteToStep(minute, step)` from the source.  Note `Number(step) || 5`:
a step of `0` falls back to the default step `5` *before* the `s <= 0` guard,
so only strictly negative steps return the minute unchanged.  `Math.floor` and
`Math.ceil` of `m / s` (for the positive `s` reaching them) are floor and
ceiling division; `%` is JS truncating remainder (`Int.tmod`). -/
def clampMinuteToStep (minute step : Int) : Int :=
  let m := minute
  let s := if step = 0 then 5 else step
  if s ≤ 0 then m
  else
    let down := (m / s) * s          -- Math.floor(m / s) * s  (s > 0)
    let up := -((-m) / s) * s        -- Math.ceil(m / s) * s   (s > 0)
    if (m - down).natAbs ≤ (up - m).natAbs then down.tmod 60
    else up.tmod 60

/-! ## Decimal digit strings -/

/-- Digits of `n` in base 10, accumulator style; structural recursion on the
fuel (always called with fuel `> n`, which suffices since `n / 10 < n`). -/
def decDigitsGo : Nat → Nat → List Char → List Char
  | 0, _, acc => acc
  | fuel + 1, n, acc =>
    if n < 10 then Nat.digitChar n :: acc
    else decDigitsGo fuel (n / 10) (Nat.digitChar (n % 10) :: acc)

/-- The characters of JS `String(n)` for a natural number `n`. -/
def decDigits (n : Nat) : List Char := decDigitsGo (n + 1) n []

/-- JS `String(v)` for an integer. -/
def intToChars (v : Int) : List Char :=
  if v < 0 then '-' :: decDigits v.natAbs else decDigits v.toNat

/-- `String.prototype.padStart(2, '0')`. -/
def padStart2 (l : List Char) : List Char :=
  if l.length ≥ 2 then l else List.replicate (2 - l.length) '0' ++ l

/-- `padStartNumber(value, 2)` on a natural number. -/
def pad2 (n : Nat) : List Char := padStart2 (decDigits n)

/-- Numeric value of a digit character (`Number` applied to the captured
digit substring works digit-wise). -/
def charDigitVal (c : Char) : Nat := c.toNat - 48

/-- Numeric value of a two-digit capture. -/
def val2 (a b : Char) : Nat := 10 * charDigitVal a + charDigitVal b

/-- Numeric value of a four-digit capture. -/
def val4 (a b c e : Char) : Nat :=
  10 * (10 * (10 * charDigitVal a + charDigitVal b) + charDigitVal c) + charDigitVal e

/-! ## Format patterns, `formatDate` and `parseDate` (claim C1)

A format pattern is the sequence of tokens and literal separator characters
that `formatDate` substitutes (`yyyy, MM, dd, HH, hh, mm, a`) and from which
`parseDate` builds its anchored regular expression
(`(?<year>\d{4})`, `(?<month>\d{1,2})`, …, `(?<ampm>AM|PM|am|pm)`). -/

inductive PItem
  | tokY | tokM | tokD | tokH | tokh | tokm | tokA
  | lit (c : Char)
  deriving DecidableEq, Repr

abbrev Pattern := List PItem

/-- `'yyyy-MM-dd'`. -/
def DEFAULT_FORMAT : Pattern := [.tokY, .lit '-', .tokM, .lit '-', .tokD]

/-- The 12-hour display hour `((hours24 % 12) || 12)`. -/
def hour12Of (h : Nat) : Nat := if h % 12 = 0 then 12 else h % 12

/-- One token substitution of `formatDate`. -/
def renderItem (d : JDate) : PItem → List Char
  | .tokY => intToChars d.year
  | .tokM => pad2 d.month
  | .tokD => pad2 d.day
  | .tokH => pad2 d.hour
  | .tokh => pad2 (hour12Of d.hour)
  | .tokm => pad2 d.minute
  | .tokA => if d.hour ≥ 12 then ['P', 'M'] else ['A', 'M']
  | .lit c => [c]

/-- `formatDate(date, formatString)` (on a valid date; invalid dates format
to the empty string and never arise in the model). -/
def formatDate (d : JDate) : Pattern → List Char
  | [] => []
  | it :: rest => renderItem d it ++ formatDate d rest

/-- The named capture groups of `parseDate`'s regular expression.  The `ampm`
group keeps the two captured characters (the source keeps the captured
substring and later tests it with `/pm/i`). -/
structure Groups where
  year : Option Nat := none
  month : Option Nat := none
  day : Option Nat := none
  hour24 : Option Nat := none
  hour12 : Option Nat := none
  minute : Option Nat := none
  ampm : Option (Char × Char) := none
  deriving DecidableEq, Repr

/-- The `AM|PM|am|pm` alternation.  The four alternatives are mutually
exclusive two-character strings, so ordered alternation with backtracking is
equivalent to this direct two-character test. -/
def isAmpmPair (a b : Char) : Bool :=
  (a == 'A' && b == 'M') || (a == 'P' && b == 'M') ||
  (a == 'a' && b == 'm') || (a == 'p' && b == 'm')

/-- Anchored match of the compiled pattern against the input, JS regex
semantics: literals match themselves, `\d{4}` consumes exactly four digits,
`\d{1,2}` is greedy (two digits first, retrying with one if the rest of the
match fails), and the whole input must be consumed. -/
def mrun : Pattern → List Char → Groups → Option Groups
  | [], [], g => some g
  | [], _ :: _, _ => none
  | .lit c :: rest, x :: xs, g => if x == c then mrun rest xs g else none
  | .lit _ :: _, [], _ => none
  | .tokY :: rest, a :: b :: c :: e :: xs, g =>
    if a.isDigit && b.isDigit && c.isDigit && e.isDigit then
      mrun rest xs { g with year := some (val4 a b c e) }
    else none
  | .tokY :: _, _, _ => none
  | .tokM :: rest, a :: b :: xs, g =>
    if a.isDigit && b.isDigit then
      match mrun rest xs { g with month := some (val2 a b) } with
      | some r => some r
      | none => mrun rest (b :: xs) { g with month := some (charDigitVal a) }
    else if a.isDigit then mrun rest (b :: xs) { g with month := some (charDigitVal a) }
    else none
  | .tokM :: rest, [a], g =>
    if a.isDigit then mrun rest [] { g with month := some (charDigitVal a) } else none
  | .tokM :: _, [], _ => none
  | .tokD :: rest, a :: b :: xs, g =>
    if a.isDigit && b.isDigit then
      match mrun rest xs { g with day := some (val2 a b) } with
      | some r => some r
      | none => mrun rest (b :: xs) { g with day := some (charDigitVal a) }
    else if a.isDigit then mrun rest (b :: xs) { g with day := some (charDigitVal a) }
    else none
  | .tokD :: rest, [a], g =>
    if a.isDigit then mrun rest [] { g with day := some (charDigitVal a) } else none
  | .tokD :: _, [], _ => none
  | .tokH :: rest, a :: b :: xs, g =>
    if a.isDigit && b.isDigit then
      match mrun rest xs { g with hour24 := some (val2 a b) } with
      | some r => some r
      | none => mrun rest (b :: xs) { g with hour24 := some (charDigitVal a) }
    else if a.isDigit then mrun rest (b :: xs) { g with hour24 := some (charDigitVal a) }
    else none
  | .tokH :: rest, [a], g =>
    if a.isDigit then mrun rest [] { g with hour24 := some (charDigitVal a) } else none
  | .tokH :: _, [], _ => none
  | .tokh :: rest, a :: b :: xs, g =>
    if a.isDigit && b.isDigit then
      match mrun rest xs { g with hour12 := some (val2 a b) } with
      | some r => some r
      | none => mrun rest (b :: xs) { g with hour12 := some (charDigitVal a) }
    else if a.isDigit then mrun rest (b :: xs) { g with hour12 := some (charDigitVal a) }
    else none
  | .tokh :: rest, [a], g =>
    if a.isDigit then mrun rest [] { g with hour12 := some (charDigitVal a) } else none
  | .tokh :: _, [], _ => none
  | .tokm :: rest, a :: b :: xs, g =>
    if a.isDigit && b.isDigit then
      match mrun rest xs { g with minute := some (val2 a b) } with
      | some r => some r
      | none => mrun rest (b :: xs) { g with minute := some (charDigitVal a) }
    else if a.isDigit then mrun rest (b :: xs) { g with minute := some (charDigitVal a) }
    else none
  | .tokm :: rest, [a], g =>
    if a.isDigit then mrun rest [] { g with minute := some (charDigitVal a) } else none
  | .tokm :: _, [], _ => none
  | .tokA :: rest, a :: b :: xs, g =>
    if isAmpmPair a b then mrun rest xs { g with ampm := some (a, b) } else none
  | .tokA :: _, _, _ => none

/-- `/pm/i.test(ampm)` on a captured `AM|PM|am|pm` pair. -/
def isPmGroup : Option (Char × Char) → Bool
  | none => false
  | some (c, _) => c == 'P' || c == 'p'

/-- `parseDate(value, formatString)`.  A missing year/month/day capture makes
`Number(undefined) = NaN` and hence an invalid `Date` (→ `null`); missing hour
captures default to midnight and a missing minute capture to `0`; captured
fields are range-clamped exactly as in the source, then fed to the normalizing
`Date` constructor. -/
def parseDate (value : List Char) (p : Pattern) : Option JDate :=
  if value.isEmpty then none
  else
    match mrun p value {} with
    | none => none
    | some g =>
      match g.year, g.month, g.day with
      | some y, some mo, some da =>
        let hour : Nat :=
          match g.hour24 with
          | some h => min 23 h
          | none =>
            match g.hour12 with
            | some h12 =>
              let h12c := min 12 (max 1 h12)
              if isPmGroup g.ampm then (h12c % 12) + 12 else h12c % 12
            | none => 0
        let minute : Nat := match g.minute with | some mi => min 59 mi | none => 0
        some (mkDate y ((mo : Int) - 1) da hour minute)
      | _, _, _ => none

/-- A well-formed pattern uses each token at most once.  (The source's
`new RegExp` construction would throw on a repeated named capture group, so
patterns with repeated tokens are outside the model.) -/
def WFPattern (p : Pattern) : Prop :=
  p.count .tokY ≤ 1 ∧ p.count .tokM ≤ 1 ∧ p.count .tokD ≤ 1 ∧
  p.count .tokH ≤ 1 ∧ p.count .tokh ≤ 1 ∧ p.count .tokm ≤ 1 ∧ p.count .tokA ≤ 1

instance (p : Pattern) : Decidable (WFPattern p) := by
  unfold WFPattern; infer_instance

/-- The capture groups an aligned full match assigns, used to state the
round-trip theorem. -/
def applyP (d : JDate) : Pattern → Groups → Groups
  | [], g => g
  | .tokY :: rest, g => applyP d rest { g with year := some d.year.toNat }
  | .tokM :: rest, g => applyP d rest { g with month := some d.month }
  | .tokD :: rest, g => applyP d rest { g with day := some d.day }
  | .tokH :: rest, g => applyP d rest { g with hour24 := some d.hour }
  | .tokh :: rest, g => applyP d rest { g with hour12 := some (hour12Of d.hour) }
  | .tokm :: rest, g => applyP d rest { g with minute := some d.minute }
  | .tokA :: rest, g =>
    applyP d rest { g with ampm := some (if d.hour ≥ 12 then ('P', 'M') else ('A', 'M')) }
  | .lit _ :: rest, g => applyP d rest g

/-! ## The widget state model

The mutable `DatePicker` object becomes an explicit state record; every
operation returns the updated state together with the list of
notification-callback invocations it performs (DOM rendering, positioning and
the `change` event dispatch are presentation effects outside the model).  The
bound input field's string is part of the state (`inputValue`). -/

/-- `options.scheduleMode : 'none' | 'weekly' | 'monthly'` (`off` models
`'none'`). -/
inductive ScheduleMode
  | off | weekly | monthly
  deriving DecidableEq, Repr

/-- The source tag passed to callbacks. -/
inductive Source
  | user | api | confirm
  deriving DecidableEq, Repr

/-- The resolved `this.options` fields the modelled operations read.
Callbacks are modelled by presence flags plus, for `disableDates`, the
predicate itself. -/
structure Options where
  format : Pattern
  firstDayOfWeek : Nat
  minDate : Option JDate
  maxDate : Option JDate
  disableDates : Option (JDate → Bool)
  hasOnSelect : Bool
  hasOnSelectRange : Bool
  hasOnSelectSchedule : Bool
  openOnFocus : Bool
  autoClose : Bool
  showOutsideDays : Bool
  inline : Bool
  enableTime : Bool
  timeStep : Int
  hour12 : Bool
  range : Bool
  rangeSeparator : List Char
  confirm : Bool
  scheduleMode : ScheduleMode
  scheduleWeeklyMulti : Bool
  scheduleMonthlyMulti : Bool

/-- The widget's mutable selection/view state. -/
structure PickerState where
  options : Options
  selectedDate : Option JDate
  scheduleWeeklySelected : List Nat   -- JS `Set`, insertion order, values 0..6
  scheduleMonthlySelected : List Nat  -- JS `Set`, insertion order, values 1..31
  rangeStart : Option JDate
  rangeEnd : Option JDate
  hoveringDate : Option JDate
  startHours : Nat
  startMinutes : Nat
  endHours : Nat
  endMinutes : Nat
  timeHours : Nat
  timeMinutes : Nat
  focusedDate : Option JDate
  currentViewMonth : JDate
  inputValue : List Char

/-- A notification-callback invocation (`onSelect`, `onSelectRange`,
`onSelectSchedule`) with its payload. -/
inductive Event
  | select (value : Option JDate) (formatted : List Char) (source : Source)
  | selectRange (start stop : Option JDate) (formatted : List Char) (source : Source)
  | selectSchedule (mode : ScheduleMode) (weekly monthly : List Nat)
      (arr : List Nat) (formatted : List Char) (source : Source)
  deriving DecidableEq

/-- `Set.prototype.add` (insertion order, no duplicates). -/
def setAdd (l : List Nat) (v : Nat) : List Nat :=
  if v ∈ l then l else l ++ [v]

/-- `Set.prototype.delete`. -/
def setDelete (l : List Nat) (v : Nat) : List Nat :=
  l.filter (fun x => x ≠ v)

/-- `.sort((a, b) => a - b)`: ascending numeric sort. -/
def sortAsc (l : List Nat) : List Nat := List.insertionSort (· ≤ ·) l

/-- `_formatScheduleArray()`: weekly sorts the internal 0=Sunday..6=Saturday
values and then maps `0 ↦ 7`; monthly sorts the 1..31 day numbers. -/
def formatScheduleArray (st : PickerState) : List Nat :=
  match st.options.scheduleMode with
  | .weekly => (sortAsc st.scheduleWeeklySelected).map (fun v => if v = 0 then 7 else v)
  | .monthly => sortAsc st.scheduleMonthlySelected
  | .off => []

/-- `array.join(',')` on numbers. -/
def joinCommaNums : List Nat → List Char
  | [] => []
  | [n] => decDigits n
  | n :: rest => decDigits n ++ ',' :: joinCommaNums rest

/-- `_syncScheduleValue(source)`. -/
def syncScheduleValue (st : PickerState) (source : Source) : PickerState × List Event :=
  match st.options.scheduleMode with
  | .off => (st, [])
  | _ =>
    let arr := formatScheduleArray st
    let formatted := joinCommaNums arr
    let st' := if st.options.confirm then st else { st with inputValue := formatted }
    let evs :=
      if st.options.hasOnSelectSchedule then
        [Event.selectSchedule st.options.scheduleMode st.scheduleWeeklySelected
          st.scheduleMonthlySelected arr formatted source]
      else []
    (st', evs)

/-- `_toggleWeeklyDay(dayIndex, fromUser)`. -/
def toggleWeeklyDay (st : PickerState) (dayIndex : Int) (fromUser : Bool) :
    PickerState × List Event :=
  if st.options.scheduleMode ≠ ScheduleMode.weekly then (st, [])
  else
    let idx : Nat := (max 0 (min 6 dayIndex)).toNat
    let sel :=
      if st.options.scheduleWeeklyMulti then
        if idx ∈ st.scheduleWeeklySelected then setDelete st.scheduleWeeklySelected idx
        else setAdd st.scheduleWeeklySelected idx
      else [idx]  -- clear() then add(idx)
    let st' := { st with scheduleWeeklySelected := sel }
    syncScheduleValue st' (if fromUser then Source.user else Source.api)

/-- `_toggleMonthlyDay(dayOfMonth, fromUser)`; note `Number(dayOfMonth) || 1`
maps `0` to `1` before clamping into 1..31. -/
def toggleMonthlyDay (st : PickerState) (dayOfMonth : Int) (fromUser : Bool) :
    PickerState × List Event :=
  if st.options.scheduleMode ≠ ScheduleMode.monthly then (st, [])
  else
    let d0 : Int := if dayOfMonth = 0 then 1 else dayOfMonth
    let d : Nat := (max 1 (min 31 d0)).toNat
    let sel :=
      if st.options.scheduleMonthlyMulti then
        if d ∈ st.scheduleMonthlySelected then setDelete st.scheduleMonthlySelected d
        else setAdd st.scheduleMonthlySelected d
      else [d]  -- clear() then add(d)
    let st' := { st with scheduleMonthlySelected := sel }
    syncScheduleValue st' (if fromUser then Source.user else Source.api)

/-! ## Bounds, range and single-date operations -/

/-- `_normalizeDate` on an already-valid `Date` argument: with time enabled
the value is copied as-is, otherwise truncated to the start of its day. -/
def normalizeDate (o : Options) (d : JDate) : JDate :=
  if o.enableTime then d else startOfDay d

def normalizeDateOpt (o : Options) : Option JDate → Option JDate
  | none => none
  | some d => some (normalizeDate o d)

/-- `isDateOutOfBounds(date, minDate, maxDate)`; `Date` comparison is epoch
comparison. -/
def isDateOutOfBounds (d : JDate) (minD maxD : Option JDate) : Bool :=
  (match minD with
   | some md => decide (epochMinutes d < epochMinutes md)
   | none => false) ||
  (match maxD with
   | some md => decide (epochMinutes d > epochMinutes md)
   | none => false)

/-- `options.disableDates && options.disableDates(date)`. -/
def isDisabledByFn (o : Options) (d : JDate) : Bool :=
  match o.disableDates with
  | some f => f d
  | none => false

/-- `options.rangeSeparator || ' - '`. -/
def sepOf (o : Options) : List Char :=
  if o.rangeSeparator.isEmpty then [' ', '-', ' '] else o.rangeSeparator

/-- `_formatRangeString(start, end)`. -/
def formatRangeString (o : Options) (s e : Option JDate) : List Char :=
  match s, e with
  | some s', some e' => formatDate s' o.format ++ sepOf o ++ formatDate e' o.format
  | some s', none => formatDate s' o.format
  | _, _ => []

/-- Whether `pre` is an initial segment of `l` (used for `String.split`). -/
def leadsWith : List Char → List Char → Bool
  | [], _ => true
  | _ :: _, [] => false
  | a :: as, b :: bs => a == b && leadsWith as bs

/-- `String.prototype.split` with a non-empty string separator; fuel-driven
left-to-right scan (`fuel > s.length` always suffices). -/
def splitOnGo (sep : List Char) : Nat → List Char → List Char → List (List Char)
  | 0, acc, rest => [acc.reverse ++ rest]
  | fuel + 1, acc, rest =>
    match rest with
    | [] => [acc.reverse]
    | c :: rest' =>
      if leadsWith sep rest then
        acc.reverse :: splitOnGo sep fuel [] (rest.drop sep.length)
      else
        splitOnGo sep fuel (c :: acc) rest'

def splitOn (sep s : List Char) : List (List Char) :=
  if sep.isEmpty then [s] else splitOnGo sep (s.length + 1) [] s

/-- JS `String.prototype.trim` (the separators in play only involve plain
whitespace). -/
def isWsp (c : Char) : Bool := c == ' ' || c == '\t' || c == '\n' || c == '\r'

def trimChars (l : List Char) : List Char :=
  ((l.dropWhile isWsp).reverse.dropWhile isWsp).reverse

/-- `if (start && end && end < start) { swap }`: order two optional
endpoints so the earlier one is the start. -/
def orderEndpoints (s e : Option JDate) : Option JDate × Option JDate :=
  match s, e with
  | some a, some b =>
    if epochMinutes b < epochMinutes a then (some b, some a) else (some a, some b)
  | _, _ => (s, e)

/-- Drop an endpoint that is out of bounds or rejected by `disableDates`
(the per-endpoint filtering both `_parseRangeString` and `setRange` apply). -/
def filterEndpoint (o : Options) (x : Option JDate) : Option JDate :=
  let x1 := if x.any (fun d => isDateOutOfBounds d o.minDate o.maxDate) then none else x
  if x1.any (fun d => isDisabledByFn o d) then none else x1

/-- The swap-then-filter pipeline applied to a candidate endpoint pair. -/
def setRangeEndpoints (o : Options) (s0 e0 : Option JDate) :
    Option JDate × Option JDate :=
  let p := orderEndpoints s0 e0
  (filterEndpoint o p.1, filterEndpoint o p.2)

/-- `_parseRangeString(value)`: split on the separator, parse both halves,
swap so the earlier endpoint is the start, then drop out-of-bounds or
disabled endpoints. -/
def parseRangeString (o : Options) (value : List Char) :
    Option (Option JDate × Option JDate) :=
  match splitOn (sepOf o) value with
  | [p1, p2] =>
    let s := parseDate (trimChars p1) o.format
    let e := parseDate (trimChars p2) o.format
    let start := s.map (fun d => if o.enableTime then d else startOfDay d)
    let stop := e.map (fun d => if o.enableTime then d else startOfDay d)
    if start.isNone && stop.isNone then none
    else some (setRangeEndpoints o start stop)
  | _ => none

/-- `_syncRangeValue(source)`. -/
def syncRangeValue (st : PickerState) (source : Source) : PickerState × List Event :=
  let formatted := formatRangeString st.options st.rangeStart st.rangeEnd
  let st' := if st.options.confirm then st else { st with inputValue := formatted }
  let evs :=
    if st.options.hasOnSelectRange then
      [Event.selectRange st.rangeStart st.rangeEnd formatted source]
    else []
  (st', evs)

/-- `_handleRangeClick(dayDate)`: the two-phase range protocol. -/
def handleRangeClick (st : PickerState) (dayDate : JDate) : PickerState × List Event :=
  if !st.options.range then (st, [])
  else if st.rangeStart.isNone || (st.rangeStart.isSome && st.rangeEnd.isSome) then
    -- phase 1: start a new range
    let newStart :=
      if st.options.enableTime then
        mkDate dayDate.year ((dayDate.month : Int) - 1) dayDate.day st.startHours st.startMinutes
      else startOfDay dayDate
    let st' := { st with rangeStart := some newStart, rangeEnd := none, hoveringDate := none }
    syncRangeValue st' Source.user
  else
    -- phase 2: start is set and end is not
    match st.rangeStart with
    | none => (st, [])
    | some start =>
      let stop :=
        if st.options.enableTime then
          mkDate dayDate.year ((dayDate.month : Int) - 1) dayDate.day st.endHours st.endMinutes
        else startOfDay dayDate
      let st' :=
        if epochMinutes stop < epochMinutes start then
          { st with rangeStart := some stop, rangeEnd := some start, hoveringDate := none }
        else
          { st with rangeEnd := some stop, hoveringDate := none }
      syncRangeValue st' Source.user

/-- The state mutations `setRange` performs once the final endpoints are
known: store them, refresh the per-endpoint time fields when time is enabled,
and repaginate the view to the start month. -/
def applyRangeAssign (st : PickerState) (s3 e3 : Option JDate) : PickerState :=
  let st' := { st with rangeStart := s3, rangeEnd := e3 }
  let st' :=
    if st.options.enableTime then
      let stA :=
        match s3 with
        | some d =>
          { st' with
            startHours := d.hour
            startMinutes := (clampMinuteToStep d.minute st.options.timeStep).toNat }
        | none => st'
      match e3 with
      | some d =>
        { stA with
          endHours := d.hour
          endMinutes := (clampMinuteToStep d.minute st.options.timeStep).toNat }
      | none => stA
    else st'
  match s3 with
  | some d => { st' with currentViewMonth := startOfMonth d }
  | none => st'

/-- The argument forms `setRange` accepts (a `Date`-valued array/object, a
range string, or `null`; string entries inside arrays/objects are not
modelled). -/
inductive RangeInput
  | null
  | str (s : List Char)
  | arr (a b : Option JDate)
  | obj (s e : Option JDate)

/-- `setRange(rangeOrString, source)`. -/
def setRange (st : PickerState) (input : RangeInput) (source : Source) :
    PickerState × List Event :=
  if !st.options.range then (st, [])
  else
    match input with
    | .null =>
      let st' := { st with rangeStart := none, rangeEnd := none, hoveringDate := none }
      let st' := if st.options.confirm then st' else { st' with inputValue := [] }
      let evs :=
        if st.options.hasOnSelectRange then [Event.selectRange none none [] source] else []
      (st', evs)
    | input =>
      let se0 : Option JDate × Option JDate :=
        match input with
        | .str v =>
          match parseRangeString st.options v with
          | some p => p
          | none => (none, none)
        | .arr a b => (normalizeDateOpt st.options a, normalizeDateOpt st.options b)
        | .obj a b => (normalizeDateOpt st.options a, normalizeDateOpt st.options b)
        | .null => (none, none)
      let se := setRangeEndpoints st.options se0.1 se0.2
      let stA := applyRangeAssign st se.1 se.2
      let formatted := formatRangeString st.options se.1 se.2
      let st' := if st.options.confirm then stA else { stA with inputValue := formatted }
      let evs :=
        if st.options.hasOnSelectRange then [Event.selectRange se.1 se.2 formatted source]
        else []
      (st', evs)

/-- `_applySelection(dateTime, source)`: stores the selection, fires
`onSelect` unconditionally, and writes the bound field only outside confirm
mode. -/
def applySelection (st : PickerState) (dateTime : JDate) (source : Source) :
    PickerState × List Event :=
  let formatted := formatDate dateTime st.options.format
  let st' :=
    { st with
      selectedDate := some dateTime
      focusedDate := some (startOfDay dateTime) }
  let evs := if st.options.hasOnSelect then [Event.select (some dateTime) formatted source] else []
  let st' := if st.options.confirm then st' else { st' with inputValue := formatted }
  (st', evs)

/-- `_selectDate(date, source)`. -/
def selectDate (st : PickerState) (date : JDate) (source : Source) :
    PickerState × List Event :=
  let finalDate :=
    if st.options.enableTime then
      mkDate date.year ((date.month : Int) - 1) date.day st.timeHours st.timeMinutes
    else startOfDay date
  applySelection st finalDate source

/-- `setDate(dateOrString, source)` with a `Date`-or-`null` argument. -/
def setDate (st : PickerState) (input : Option JDate) (source : Source) :
    PickerState × List Event :=
  if st.options.range then
    match input with
    | none => setRange st RangeInput.null source
    | some d => setRange st (RangeInput.obj (some d) st.rangeEnd) source
  else
    match input with
    | none =>
      let st' := { st with selectedDate := none }
      let st' := if st.options.confirm then st' else { st' with inputValue := [] }
      let evs := if st.options.hasOnSelect then [Event.select none [] source] else []
      (st', evs)
    | some dRaw =>
      let parsed := normalizeDate st.options dRaw
      if isDateOutOfBounds parsed st.options.minDate st.options.maxDate then (st, [])
      else if isDisabledByFn st.options parsed then (st, [])
      else
        let st' := { st with currentViewMonth := startOfMonth parsed }
        let st' :=
          if st.options.enableTime then
            -- _initTimeFromDate(parsed)
            { st' with
              timeHours := parsed.hour
              timeMinutes := (clampMinuteToStep parsed.minute st.options.timeStep).toNat }
          else st'
        selectDate st' parsed source

/-- `_commitValue()`: the Done action; writes the bound field and fires the
mode's callback with source `'confirm'`; a no-op outside confirm mode. -/
def commitValue (st : PickerState) : PickerState × List Event :=
  if !st.options.confirm then (st, [])
  else
    match st.options.scheduleMode with
    | .weekly | .monthly =>
      let arr := formatScheduleArray st
      let formatted := joinCommaNums arr
      let st' := { st with inputValue := formatted }
      let evs :=
        if st.options.hasOnSelectSchedule then
          [Event.selectSchedule st.options.scheduleMode st.scheduleWeeklySelected
            st.scheduleMonthlySelected arr formatted Source.confirm]
        else []
      (st', evs)
    | .off =>
      if st.options.range then
        let formatted := formatRangeString st.options st.rangeStart st.rangeEnd
        let st' := { st with inputValue := formatted }
        let evs :=
          if st.options.hasOnSelectRange then
            [Event.selectRange st.rangeStart st.rangeEnd formatted Source.confirm]
          else []
        (st', evs)
      else
        let formatted :=
          match st.selectedDate with
          | some d => formatDate d st.options.format
          | none => []
        let st' := { st with inputValue := formatted }
        let evs :=
          if st.options.hasOnSelect then
            [Event.select st.selectedDate formatted Source.confirm]
          else []
        (st', evs)

/-! ## Calendar grid (claim C8) -/

/-- One grid cell: a real day cell or the `dp-day is-empty` placeholder used
for outside-month days when `showOutsideDays` is off. -/
inductive Cell
  | empty
  | day (date : JDate) (isOutside isToday isSelected isDisabled : Bool)
  deriving DecidableEq, Repr

def cellDate : Cell → Option JDate
  | .empty => none
  | .day d _ _ _ _ => some d

/-- The body of the 42-iteration rendering loop of `_render()` for a
calendar-mode grid (`today` abstracts `new Date()`). -/
def buildCell (st : PickerState) (today gridStart : JDate) (i : Nat) : Cell :=
  let dayDate := addDays gridStart i
  let isOutside := dayDate.month != st.currentViewMonth.month
  if !st.options.showOutsideDays && isOutside then Cell.empty
  else
    let isToday := areSameCalendarDate dayDate today
    let isSelectedSingle :=
      if st.options.scheduleMode = ScheduleMode.off ∧ !st.options.range then
        match st.selectedDate with
        | some sd => areSameCalendarDate dayDate sd
        | none => false
      else false
    let disabledByBounds := isDateOutOfBounds dayDate st.options.minDate st.options.maxDate
    let disabledByFn := isDisabledByFn st.options dayDate
    Cell.day dayDate isOutside isToday isSelectedSingle (disabledByBounds || disabledByFn)

/-- The calendar grid `_render()` produces in calendar mode: always 42 cells
starting from `startOfWeek(startOfMonth(currentViewMonth), firstDayOfWeek)`. -/
def buildCalendarGrid (st : PickerState) (today : JDate) : List Cell :=
  let firstDay := startOfMonth st.currentViewMonth
  let gridStart := startOfWeek firstDay st.options.firstDayOfWeek
  (List.range 42).map (buildCell st today gridStart)

/-! ## Option resolution (claims C10, parts of others) -/

/-- The raw constructor options relevant to the model (`initialOptions`);
`Option` captures an absent key, mirroring the `x !== false` / `x || default`
defaulting idioms. -/
structure RawOptions where
  format : Option Pattern := none
  firstDayOfWeek : Option Nat := none
  minDate : Option JDate := none
  maxDate : Option JDate := none
  disableDates : Option (JDate → Bool) := none
  hasOnSelect : Bool := false
  hasOnSelectRange : Bool := false
  hasOnSelectSchedule : Bool := false
  openOnFocus : Option Bool := none
  autoClose : Option Bool := none
  showOutsideDays : Option Bool := none
  inline : Bool := false
  enableTime : Bool := false
  timeStep : Option Int := none
  hour12 : Bool := false
  range : Bool := false
  rangeSeparator : Option (List Char) := none
  confirm : Bool := false
  scheduleMode : Option ScheduleMode := none
  scheduleWeeklyMulti : Option Bool := none
  scheduleMonthlyMulti : Option Bool := none

/-- The constructor's option resolution (`this.options = {...}` plus the two
post-passes): schedule modes force-disable time and range, and `enableTime`
forces `confirm` on.  (During the options literal's evaluation
`this.options` is still undefined, so `_normalizeDate` truncates
min/max dates to day precision regardless of `enableTime`.) -/
def resolveBase (r : RawOptions) : Options := {
    format := r.format.getD DEFAULT_FORMAT
    firstDayOfWeek := r.firstDayOfWeek.getD 0
    minDate := r.minDate.map startOfDay
    maxDate := r.maxDate.map startOfDay
    disableDates := r.disableDates
    hasOnSelect := r.hasOnSelect
    hasOnSelectRange := r.hasOnSelectRange
    hasOnSelectSchedule := r.hasOnSelectSchedule
    openOnFocus := r.openOnFocus.getD true
    autoClose := r.autoClose.getD true
    showOutsideDays := r.showOutsideDays.getD true
    inline := r.inline
    enableTime := r.enableTime
    timeStep := match r.timeStep with | some t => if t > 0 then t else 5 | none => 5
    hour12 := r.hour12
    range := r.range
    rangeSeparator := r.rangeSeparator.getD [' ', '-', ' ']
    confirm := r.confirm
    scheduleMode := r.scheduleMode.getD ScheduleMode.off
    scheduleWeeklyMulti := r.scheduleWeeklyMulti.getD true
    scheduleMonthlyMulti := r.scheduleMonthlyMulti.getD true }

/-- The constructor pass that force-disables time/range in schedule modes. -/
def applyScheduleOverride (o : Options) : Options :=
  if o.scheduleMode ≠ ScheduleMode.off
  then { o with enableTime := false, range := false } else o

/-- The constructor pass that forces the Done button when time is enabled. -/
def applyTimeConfirm (o : Options) : Options :=
  if o.enableTime then { o with confirm := true } else o

def resolveOptions (r : RawOptions) : Options :=
  applyTimeConfirm (applyScheduleOverride (resolveBase r))

/-- The `enableTime` branch of `updateOptions` restricted to option fields
(DOM control rebuilding omitted): in schedule mode the request is ignored;
turning time on also forces `confirm` on. -/
def updateEnableTime (o : Options) (want : Bool) : Options :=
  let enable := if o.scheduleMode ≠ ScheduleMode.off then false else want
  if enable && !o.enableTime then
    let o := { o with enableTime := true }
    if !o.confirm then { o with confirm := true } else o
  else if !enable && o.enableTime then
    { o with enableTime := false }
  else o

/-! ## Concrete sample configurations and states, used to instantiate the
theorems on explicit inputs -/

def sampleOptions : Options where
  format := DEFAULT_FORMAT
  firstDayOfWeek := 0
  minDate := none
  maxDate := none
  disableDates := none
  hasOnSelect := true
  hasOnSelectRange := true
  hasOnSelectSchedule := true
  openOnFocus := true
  autoClose := true
  showOutsideDays := true
  inline := false
  enableTime := false
  timeStep := 5
  hour12 := false
  range := false
  rangeSeparator := [' ', '-', ' ']
  confirm := false
  scheduleMode := ScheduleMode.off
  scheduleWeeklyMulti := true
  scheduleMonthlyMulti := true

def mkState (o : Options) : PickerState where
  options := o
  selectedDate := none
  scheduleWeeklySelected := []
  scheduleMonthlySelected := []
  rangeStart := none
  rangeEnd := none
  hoveringDate := none
  startHours := 0
  startMinutes := 0
  endHours := 0
  endMinutes := 0
  timeHours := 0
  timeMinutes := 0
  focusedDate := none
  currentViewMonth := ⟨2024, 3, 1, 0, 0⟩
  inputValue := []

/-- A weekly-schedule state with Sunday (internal 0) and Monday (internal 1)
selected, in that click order. -/
def weeklySundayMondayState : PickerState :=
  { mkState { sampleOptions with scheduleMode := ScheduleMode.weekly } with
    scheduleWeeklySelected := [0, 1] }

/-- A range-mode state with a pending start and no end. -/
def pendingRangeState : PickerState :=
  { mkState { sampleOptions with range := true } with
    rangeStart := some ⟨2024, 3, 15, 0, 0⟩ }

/-- A range-mode state with 2024 bounds and a pending start. -/
def boundedRangeState : PickerState :=
  { mkState
      { sampleOptions with
        range := true
        minDate := some ⟨2024, 1, 1, 0, 0⟩
        maxDate := some ⟨2024, 12, 31, 0, 0⟩ } with
    rangeStart := some ⟨2024, 3, 10, 0, 0⟩ }

/-- A single-mode state with 2024 bounds and a selection. -/
def boundedSingleState : PickerState :=
  { mkState
      { sampleOptions with
        minDate := some ⟨2024, 1, 1, 0, 0⟩
        maxDate := some ⟨2024, 12, 31, 0, 0⟩ } with
    selectedDate := some ⟨2024, 3, 10, 0, 0⟩ }

/-- A confirm-mode single state with a distinctive bound-field value. -/
def confirmSingleState : PickerState :=
  { mkState { sampleOptions with confirm := true } with
    inputValue := ['o', 'l', 'd'] }

/-- A confirm-mode single state that already holds a selection. -/
def confirmSelectedState : PickerState :=
  { mkState { sampleOptions with confirm := true } with
    selectedDate := some ⟨2024, 3, 15, 0, 0⟩
    inputValue := ['o', 'l', 'd'] }

/-- A monthly-schedule state with multi-select disabled and day 10 selected. -/
def monthlyNoMulti10State : PickerState :=
  { mkState
      { sampleOptions with
        scheduleMode := ScheduleMode.monthly
        scheduleMonthlyMulti := false } with
    scheduleMonthlySelected := [10] }

/-- A weekly-schedule state with multi-select disabled. -/
def weeklyNoMultiState : PickerState :=
  mkState
    { sampleOptions with
      scheduleMode := ScheduleMode.weekly
      scheduleWeeklyMulti := false }

/-- Raw constructor options requesting time-of-day selection only. -/
def timeRawOptions : RawOptions := { enableTime := true }

/-- The pattern `'yyyy-MM-dd HH:mm'`. -/
def patternYmdHm : Pattern :=
  [.tokY, .lit '-', .tokM, .lit '-', .tokD, .lit ' ', .tokH, .lit ':', .tokm]

/-- The pattern `'yyyy-MM-dd hh:mm'` (12-hour token without a meridiem
token). -/
def patternYmdh12m : Pattern :=
  [.tokY, .lit '-', .tokM, .lit '-', .tokD, .lit ' ', .tokh, .lit ':', .tokm]

/-- 2024-03-15 13:05. -/
def sampleAfternoon : JDate := ⟨2024, 3, 15, 13, 5⟩

/-! ## Theorems -/

theorem daysInMonth_bounds (y : Int) (m : Nat) :
    28 ≤ daysInMonth y m ∧ daysInMonth y m ≤ 31 := by
  unfold daysInMonth
  match m with
  | 0 | 1 | 3 | 4 | 5 | 6 | 7 | 8 | 9 | 10 | 11 => simp
  | 2 => by_cases h : isLeapYear y <;> simp [h]
  | n + 12 => simp

/-- On in-range inputs, day normalization is the identity (a single unfold). -/
theorem normDay_inRange (y : Int) (m : Nat) (d : Int)
    (h1 : 1 ≤ d) (h2 : d ≤ (daysInMonth y m : Int)) :
    normDay y m d = (y, m, d.toNat) := by
  unfold normDay normDayFuel
  rw [show d.natAbs + 2 = (d.natAbs + 1) + 1 from rfl]
  rw [normDayGo]
  rw [if_neg (by omega), if_neg (by omega)]

/-- `mkDate` on in-range fields is the evident record. -/
theorem mkDate_inRange (y : Int) (m d h min : Nat)
    (hm : 1 ≤ m ∧ m ≤ 12) (hd : 1 ≤ d ∧ d ≤ daysInMonth y m)
    (hh : h ≤ 23) (hmin : min ≤ 59) :
    mkDate y ((m : Int) - 1) d h min = ⟨y, m, d, h, min⟩ := by
  unfold mkDate
  have h1 : ((h : Int) * 60 + min) / 1440 = 0 := by omega
  have h2 : ((h : Int) * 60 + min) % 1440 = h * 60 + min := by omega
  have h3 : ((m : Int) - 1) / 12 = 0 := by omega
  have h5 : ((((m : Int) - 1) % 12).toNat + 1) = m := by
    have h4 : ((m : Int) - 1) % 12 = (m : Int) - 1 := by omega
    omega
  simp only [h1, h2, h3, h5, add_zero]
  rw [normDay_inRange y m d (by omega) (by omega)]
  have h6 : (((h : Int) * 60 + min) / 60).toNat = h := by omega
  have h7 : (((h : Int) * 60 + min) % 60).toNat = min := by omega
  simp [h6, h7]

/-- Euclidean quotient/remainder decomposition of `m` by a positive `s`,
together with the quotient of `-m` (which is what `Math.ceil(m / s)`
computes through `-((-m) / s)`). -/
theorem ediv_decomp (m s : Int) (hs : 0 < s) :
    ∃ q r, m = q * s + r ∧ 0 ≤ r ∧ r < s ∧ m / s = q ∧
      (-m) / s = (if r = 0 then -q else -q - 1) := by
  refine ⟨m / s, m % s, ?_, Int.emod_nonneg m (by omega), Int.emod_lt_of_pos m hs, rfl, ?_⟩
  · have := Int.ediv_add_emod m s
    linarith [mul_comm (m / s) s]
  · by_cases hr : m % s = 0
    · have hm : m = (m / s) * s := by
        have := Int.ediv_add_emod m s
        linarith [mul_comm (m / s) s]
      rw [if_pos hr]
      calc (-m) / s = (-(m / s)) * s / s := by rw [neg_mul]; rw [← hm]
        _ = -(m / s) := Int.mul_ediv_cancel _ (by omega)
    · have hm : -m = (s - m % s) + (-(m / s) - 1) * s := by
        have := Int.ediv_add_emod m s
        ring_nf
        ring_nf at this
        linarith
      rw [if_neg hr, hm, Int.add_mul_ediv_right _ _ (by omega : s ≠ 0),
        Int.ediv_eq_zero_of_lt (by
          have := Int.emod_lt_of_pos m hs
          omega) (by
          have := Int.emod_nonneg m (by omega : s ≠ 0)
          omega)]
      ring

/-- C2, counterexample.  The claim says a step `s ≤ 0` returns the minute
unchanged, that the result is always a multiple of `s` (mod 60), and that it
differs from `m` by at most `s/2`.  But `Number(step) || 5` maps step `0` to
the default `5` before the `s <= 0` guard, so `clampMinuteToStep(7, 0) = 5 ≠ 7`;
and for `m = 59, s = 9` the chosen upward multiple is `63`, and `63 % 60 = 3`
is not a multiple of `9` and differs from `59` by `56 > 4.5`. -/
theorem clampMinuteToStep_counterexample :
    (clampMinuteToStep 7 0 = 5 ∧ (5 : Int) ≠ 7) ∧
    (clampMinuteToStep 59 9 = 3 ∧ ¬ (9 : Int) ∣ 3 ∧ ¬ (59 - 3 : Int).natAbs ≤ 4) := by
  refine ⟨⟨?_, by decide⟩, ?_, by decide, by decide⟩ <;> decide

/-- C2 (amended): a strictly negative step returns the minute unchanged; step
`0` behaves exactly like the default step `5`; and for a positive step `s` and
a nonnegative minute `m` the result is `N % 60` (JS truncating `%`) where `N`
is the multiple of `s` nearest to `m`, ties resolved downward. -/
theorem clampMinuteToStep_spec (m s : Int) (hm : 0 ≤ m) :
    (s < 0 → clampMinuteToStep m s = m) ∧
    (clampMinuteToStep m 0 = clampMinuteToStep m 5) ∧
    (0 < s → ∃ N, s ∣ N ∧ 0 ≤ N ∧
      2 * (m - N).natAbs ≤ s.natAbs ∧
      (∀ t : Int, (m - N).natAbs ≤ (m - t * s).natAbs) ∧
      (∀ t : Int, (m - t * s).natAbs = (m - N).natAbs → N ≤ t * s) ∧
      clampMinuteToStep m s = N.tmod 60) := by
  refine ⟨?_, by simp [clampMinuteToStep], ?_⟩
  · intro hneg
    unfold clampMinuteToStep
    rw [if_neg (by omega : ¬ s = 0), if_pos (by omega : s ≤ 0)]
  · intro hs
    obtain ⟨q, r, hqr, hr0, hrs, hq, hnq⟩ := ediv_decomp m s hs
    have hq0 : 0 ≤ q := by
      rw [← hq]; exact Int.ediv_nonneg hm (le_of_lt hs)
    have hqs0 : 0 ≤ q * s := mul_nonneg hq0 (le_of_lt hs)
    have unfolded : clampMinuteToStep m s =
        if (m - q * s).natAbs ≤ ((if r = 0 then q else q + 1) * s - m).natAbs
        then (q * s).tmod 60 else ((if r = 0 then q else q + 1) * s).tmod 60 := by
      unfold clampMinuteToStep
      rw [if_neg (by omega : ¬ s = 0), if_neg (by omega : ¬ s ≤ 0), hq, hnq]
      by_cases hr : r = 0
      · rw [if_pos hr, if_pos hr, show -(-q) * s = q * s by ring]
      · rw [if_neg hr, if_neg hr, show -(-q - 1) * s = (q + 1) * s by ring]
    by_cases hr : r = 0
    · -- `m` is itself a multiple of `s`: both candidates are `m`.
      refine ⟨q * s, ⟨q, by ring⟩, hqs0, by omega, fun t => by omega, ?_, ?_⟩
      · intro t ht; omega
      · rw [unfolded, if_pos hr, ite_self]
    · have hup : (q + 1) * s = q * s + s := by ring
      -- distance of an arbitrary multiple `t * s` from `m`
      have key : ∀ t : Int, (t ≤ q → m - t * s = (q - t) * s + r ∧ 0 ≤ (q - t) * s)
          ∧ (q + 1 ≤ t → m - t * s = r - s - (t - (q + 1)) * s ∧ 0 ≤ (t - (q + 1)) * s) := by
        intro t
        constructor
        · intro hle
          refine ⟨?_, mul_nonneg (by omega) (le_of_lt hs)⟩
          have : (q - t) * s = q * s - t * s := by ring
          omega
        · intro hge
          refine ⟨?_, mul_nonneg (by omega) (le_of_lt hs)⟩
          have : (t - (q + 1)) * s = t * s - q * s - s := by ring
          omega
      by_cases hbr : 2 * r ≤ s
      · -- rounds down
        refine ⟨q * s, ⟨q, by ring⟩, hqs0, by omega, ?_, ?_, ?_⟩
        · intro t
          rcases le_or_lt t q with hle | hgt
          · have := (key t).1 hle; omega
          · have := (key t).2 (by omega); omega
        · intro t ht
          rcases le_or_lt t q with hle | hgt
          · have := (key t).1 hle; omega
          · have := (key t).2 (by omega); omega
        · rw [unfolded, if_neg hr,
            if_pos (by omega : (m - q * s).natAbs ≤ ((q + 1) * s - m).natAbs)]
      · -- rounds up
        refine ⟨(q + 1) * s, ⟨q + 1, by ring⟩, by omega, by omega, ?_, ?_, ?_⟩
        · intro t
          rcases le_or_lt t q with hle | hgt
          · have := (key t).1 hle; omega
          · have := (key t).2 (by omega); omega
        · intro t ht
          rcases le_or_lt t q with hle | hgt
          · have := (key t).1 hle; omega
          · have := (key t).2 (by omega); omega
        · rw [unfolded, if_neg hr,
            if_neg (by omega : ¬ (m - q * s).natAbs ≤ ((q + 1) * s - m).natAbs)]

/-- C9: in schedule mode with multi-select disabled for the active sub-mode,
every toggle clears the set and inserts the single (clamped) toggled value,
so the selected set always ends up with at most one element; in particular
selecting day 10 and then day 20 leaves only day 20. -/
theorem toggle_single_select (st : PickerState) (dW dM : Int) (uW uM : Bool) :
    (st.options.scheduleMode = ScheduleMode.weekly →
      st.options.scheduleWeeklyMulti = false →
      (toggleWeeklyDay st dW uW).1.scheduleWeeklySelected = [(max 0 (min 6 dW)).toNat] ∧
      (toggleWeeklyDay st dW uW).1.scheduleWeeklySelected.length ≤ 1) ∧
    (st.options.scheduleMode = ScheduleMode.monthly →
      st.options.scheduleMonthlyMulti = false →
      (toggleMonthlyDay st dM uM).1.scheduleMonthlySelected
          = [(max 1 (min 31 (if dM = 0 then 1 else dM))).toNat] ∧
      (toggleMonthlyDay st dM uM).1.scheduleMonthlySelected.length ≤ 1) := by
  constructor
  · intro h1 h2
    have key : (toggleWeeklyDay st dW uW).1.scheduleWeeklySelected
        = [(max 0 (min 6 dW)).toNat] := by
      unfold toggleWeeklyDay syncScheduleValue
      simp only [h1, h2]
      split <;> (try simp_all) <;> split <;> simp_all
    exact ⟨key, by rw [key]; simp⟩
  · intro h1 h2
    have key : (toggleMonthlyDay st dM uM).1.scheduleMonthlySelected
        = [(max 1 (min 31 (if dM = 0 then 1 else dM))).toNat] := by
      unfold toggleMonthlyDay syncScheduleValue
      simp only [h1, h2]
      split <;> (try simp_all) <;> split <;> simp_all
    exact ⟨key, by rw [key]; simp⟩

theorem toggle_single_select_witness :
    (toggleMonthlyDay monthlyNoMulti10State 20 true).1.scheduleMonthlySelected = [20] ∧
    (toggleWeeklyDay weeklyNoMultiState 3 true).1.scheduleWeeklySelected = [3] := by
  constructor
  · have h := (toggle_single_select monthlyNoMulti10State 0 20 true true).2
      (by decide) (by decide)
    rw [h.1]; decide
  · have h := (toggle_single_select weeklyNoMultiState 3 0 true true).1
      (by decide) (by decide)
    rw [h.1]; decide

/-- C10: enabling time-of-day selection forces confirm mode on — at
construction, a resolved option set with `enableTime` on always has `confirm`
on; and turning `enableTime` on through `updateOptions` outside schedule mode
sets `confirm` to `true`. -/
theorem enableTime_forces_confirm (r : RawOptions) (o : Options) :
    ((resolveOptions r).enableTime = true → (resolveOptions r).confirm = true) ∧
    (o.scheduleMode = ScheduleMode.off → o.enableTime = false →
      (updateEnableTime o true).enableTime = true ∧
      (updateEnableTime o true).confirm = true) := by
  constructor
  · intro h
    unfold resolveOptions applyTimeConfirm at h ⊢
    split at h <;> simp_all
  · intro h1 h2
    unfold updateEnableTime
    simp [h1, h2]
    by_cases hc : o.confirm <;> simp [hc]

theorem enableTime_forces_confirm_witness :
    (resolveOptions timeRawOptions).enableTime = true ∧
    (resolveOptions timeRawOptions).confirm = true ∧
    (updateEnableTime sampleOptions true).confirm = true := by
  refine ⟨by decide, ?_, ?_⟩
  · exact (enableTime_forces_confirm timeRawOptions sampleOptions).1 (by decide)
  · exact ((enableTime_forces_confirm timeRawOptions sampleOptions).2
      (by decide) (by decide)).2

/-- C5, counterexample: the weekly serialization sorts the internal
0=Sunday..6=Saturday values BEFORE mapping 0 to the display value 7, so with
Sunday (0) and Monday (1) selected the serialized array is `[7, 1]` and the
bound field gets `"7,1"` — not ascending in the 1=Monday..7=Sunday display
convention claimed. -/
theorem scheduleSerialization_counterexample :
    formatScheduleArray weeklySundayMondayState = [7, 1] ∧
    joinCommaNums (formatScheduleArray weeklySundayMondayState) = ['7', ',', '1'] ∧
    (syncScheduleValue weeklySundayMondayState Source.user).1.inputValue = ['7', ',', '1'] ∧
    ¬ List.Sorted (· ≤ ·) [7, 1] := by
  refine ⟨by decide, by decide, by decide, by decide⟩

/-- C5 (amended): the weekly serialized array is the 0↦7 display image of the
selected set sorted by the INTERNAL 0=Sunday..6=Saturday order (so a selected
Sunday appears first as 7, and the array is ascending in the display
convention only when Sunday is absent); the monthly serialized array is the
selected 1–31 day set sorted ascending; outside confirm mode the bound field
receives the comma-joined array. -/
theorem scheduleSerialization_spec (st : PickerState)
    (hw : ∀ v ∈ st.scheduleWeeklySelected, v ≤ 6) :
    (st.options.scheduleMode = ScheduleMode.weekly →
      (formatScheduleArray st).Perm
          (st.scheduleWeeklySelected.map (fun v => if v = 0 then 7 else v)) ∧
      List.Sorted (· ≤ ·)
          ((formatScheduleArray st).map (fun v => if v = 7 then 0 else v))) ∧
    (st.options.scheduleMode = ScheduleMode.monthly →
      (formatScheduleArray st).Perm st.scheduleMonthlySelected ∧
      List.Sorted (· ≤ ·) (formatScheduleArray st)) ∧
    (st.options.scheduleMode ≠ ScheduleMode.off → st.options.confirm = false →
      (syncScheduleValue st Source.user).1.inputValue
        = joinCommaNums (formatScheduleArray st)) := by
  refine ⟨?_, ?_, ?_⟩
  · intro h1
    have harr : formatScheduleArray st
        = (sortAsc st.scheduleWeeklySelected).map (fun v => if v = 0 then 7 else v) := by
      unfold formatScheduleArray
      rw [h1]
    constructor
    · rw [harr]
      exact (List.perm_insertionSort _ _).map _
    · rw [harr, List.map_map]
      have hmem : ∀ v ∈ sortAsc st.scheduleWeeklySelected, v ≤ 6 := fun v hv =>
        hw v ((List.perm_insertionSort _ _).mem_iff.mp hv)
      have hid : ((sortAsc st.scheduleWeeklySelected).map
          ((fun v => if v = 7 then 0 else v) ∘ (fun v => if v = 0 then 7 else v)))
          = sortAsc st.scheduleWeeklySelected := by
        rw [List.map_congr_left (g := id) ?_, List.map_id]
        intro a ha
        have := hmem a ha
        by_cases h0 : a = 0 <;> simp [h0] <;> omega
      rw [hid]
      exact List.sorted_insertionSort _ _
  · intro h1
    have harr : formatScheduleArray st = sortAsc st.scheduleMonthlySelected := by
      unfold formatScheduleArray
      rw [h1]
    rw [harr]
    exact ⟨List.perm_insertionSort _ _, List.sorted_insertionSort _ _⟩
  · intro h1 h2
    unfold syncScheduleValue
    cases h : st.options.scheduleMode <;> simp_all

theorem scheduleSerialization_spec_witness :
    (∀ v ∈ weeklySundayMondayState.scheduleWeeklySelected, v ≤ 6) ∧
    (formatScheduleArray weeklySundayMondayState).Perm
      (weeklySundayMondayState.scheduleWeeklySelected.map (fun v => if v = 0 then 7 else v)) := by
  refine ⟨by decide, ?_⟩
  exact ((scheduleSerialization_spec weeklySundayMondayState (by decide)).1 (by decide)).1

/-- `_syncRangeValue` only touches the bound field; the stored endpoints are
unchanged. -/
theorem syncRangeValue_preserves (st : PickerState) (src : Source) :
    (syncRangeValue st src).1.rangeStart = st.rangeStart ∧
    (syncRangeValue st src).1.rangeEnd = st.rangeEnd := by
  unfold syncRangeValue
  split <;> simp

/-- C4, counterexample: with a pending start 2024-03-15 and no end, clicking
the same cell again SETS THE END to that same date (completing a one-day
range); it does not start a new range with an empty end as claimed. -/
theorem sameCellClick_counterexample :
    (handleRangeClick pendingRangeState ⟨2024, 3, 15, 0, 0⟩).1.rangeEnd
        = some ⟨2024, 3, 15, 0, 0⟩ ∧
    (handleRangeClick pendingRangeState ⟨2024, 3, 15, 0, 0⟩).1.rangeEnd ≠ none ∧
    (handleRangeClick pendingRangeState ⟨2024, 3, 15, 0, 0⟩).1.rangeStart
        = some ⟨2024, 3, 15, 0, 0⟩ := by
  refine ⟨by decide, by decide, by decide⟩

/-- C4 (amended): in range mode without time, when a start is set and no end
is set, clicking the cell of the start date completes the range: both
endpoints become that same date (a single-day range). -/
theorem sameCellClick_completes (st : PickerState) (d s : JDate)
    (hr : st.options.range = true) (ht : st.options.enableTime = false)
    (hs : st.rangeStart = some s) (he : st.rangeEnd = none)
    (hsd : startOfDay d = s) :
    (handleRangeClick st d).1.rangeStart = some s ∧
    (handleRangeClick st d).1.rangeEnd = some s := by
  unfold handleRangeClick
  rw [hr]
  simp only [Bool.not_true, Bool.false_eq_true, if_false, hs, he]
  simp only [Option.isNone_some, Option.isSome_some, Option.isSome_none,
    Bool.and_false, Bool.or_false, Bool.false_eq_true, if_false]
  rw [ht]
  simp only [Bool.false_eq_true, if_false, hsd, lt_irrefl, if_false]
  constructor
  · rw [(syncRangeValue_preserves _ _).1]
  · rw [(syncRangeValue_preserves _ _).2]

theorem sameCellClick_completes_witness :
    (pendingRangeState.options.range = true ∧
     pendingRangeState.options.enableTime = false ∧
     pendingRangeState.rangeStart = some ⟨2024, 3, 15, 0, 0⟩ ∧
     pendingRangeState.rangeEnd = none ∧
     startOfDay ⟨2024, 3, 15, 0, 0⟩ = ⟨2024, 3, 15, 0, 0⟩) ∧
    (handleRangeClick pendingRangeState ⟨2024, 3, 15, 0, 0⟩).1.rangeStart
        = some ⟨2024, 3, 15, 0, 0⟩ :=
  ⟨⟨by decide, by decide, by decide, by decide, by decide⟩,
    (sameCellClick_completes pendingRangeState ⟨2024, 3, 15, 0, 0⟩ ⟨2024, 3, 15, 0, 0⟩
      (by decide) (by decide) (by decide) (by decide) (by decide)).1⟩

/-- The endpoint filter either keeps an endpoint or drops it to `none`. -/
theorem filterEndpoint_eq_some (o : Options) (x : Option JDate) (d : JDate)
    (h : filterEndpoint o x = some d) : x = some d := by
  unfold filterEndpoint at h
  split_ifs at h <;> simp_all

/-- After the swap, a fully-present pair is ordered. -/
theorem orderEndpoints_le (s0 e0 : Option JDate) (a b : JDate)
    (h : orderEndpoints s0 e0 = (some a, some b)) :
    epochMinutes a ≤ epochMinutes b := by
  unfold orderEndpoints at h
  cases s0 with
  | none => simp at h
  | some x =>
    cases e0 with
    | none => simp at h
    | some y =>
      dsimp only at h
      by_cases hlt : epochMinutes y < epochMinutes x
      · rw [if_pos hlt] at h
        simp only [Prod.mk.injEq, Option.some.injEq] at h
        obtain ⟨rfl, rfl⟩ := h
        omega
      · rw [if_neg hlt] at h
        simp only [Prod.mk.injEq, Option.some.injEq] at h
        obtain ⟨rfl, rfl⟩ := h
        omega

/-- The swap-then-filter pipeline only produces ordered present pairs. -/
theorem setRangeEndpoints_le (o : Options) (s0 e0 : Option JDate) (a b : JDate)
    (h1 : (setRangeEndpoints o s0 e0).1 = some a)
    (h2 : (setRangeEndpoints o s0 e0).2 = some b) :
    epochMinutes a ≤ epochMinutes b := by
  unfold setRangeEndpoints at h1 h2
  have ha := filterEndpoint_eq_some _ _ _ h1
  have hb := filterEndpoint_eq_some _ _ _ h2
  have hp : orderEndpoints s0 e0 = (some a, some b) := by
    have : orderEndpoints s0 e0 = ((orderEndpoints s0 e0).1, (orderEndpoints s0 e0).2) := rfl
    rw [this, ha, hb]
  exact orderEndpoints_le s0 e0 a b hp

/-- `applyRangeAssign` stores exactly the given endpoints and touches neither
the bound field nor the options. -/
theorem applyRangeAssign_fields (st : PickerState) (s3 e3 : Option JDate) :
    (applyRangeAssign st s3 e3).rangeStart = s3 ∧
    (applyRangeAssign st s3 e3).rangeEnd = e3 ∧
    (applyRangeAssign st s3 e3).inputValue = st.inputValue ∧
    (applyRangeAssign st s3 e3).options = st.options := by
  unfold applyRangeAssign
  repeat' split
  all_goals simp

/-- The deferred-write wrapper does not touch the stored endpoints. -/
theorem confirmWrite_rangeFields (c : Bool) (stA : PickerState) (f : List Char) :
    (if c then stA else { stA with inputValue := f }).rangeStart = stA.rangeStart ∧
    (if c then stA else { stA with inputValue := f }).rangeEnd = stA.rangeEnd := by
  cases c <;> simp

/-- C3: in range mode, after any click of the two-phase protocol and after
any programmatic `setRange` call, whenever both stored endpoints are present
the start is not after the end (epoch order). -/
theorem range_start_le_end (st : PickerState) (d : JDate) (input : RangeInput)
    (src : Source) (hr : st.options.range = true) :
    (∀ s e, (handleRangeClick st d).1.rangeStart = some s →
      (handleRangeClick st d).1.rangeEnd = some e →
      epochMinutes s ≤ epochMinutes e) ∧
    (∀ s e, (setRange st input src).1.rangeStart = some s →
      (setRange st input src).1.rangeEnd = some e →
      epochMinutes s ≤ epochMinutes e) := by
  constructor
  · intro s e h1 h2
    unfold handleRangeClick at h1 h2
    rw [hr] at h1 h2
    simp only [Bool.not_true, Bool.false_eq_true, if_false] at h1 h2
    by_cases hp : (st.rangeStart.isNone || (st.rangeStart.isSome && st.rangeEnd.isSome)) = true
    · rw [if_pos hp] at h2
      rw [(syncRangeValue_preserves _ _).2] at h2
      simp at h2
    · rw [if_neg hp] at h1 h2
      cases hst : st.rangeStart with
      | none => rw [hst] at hp; simp at hp
      | some start =>
        rw [hst] at h1 h2
        dsimp only at h1 h2
        rw [(syncRangeValue_preserves _ _).1] at h1
        rw [(syncRangeValue_preserves _ _).2] at h2
        cases het : st.options.enableTime
        all_goals
          simp only [het, Bool.false_eq_true, if_true, if_false] at h1 h2
          split at h1 <;> rename_i hc2
          · rw [if_pos hc2] at h2
            simp only [Option.some.injEq] at h1 h2
            subst h1; subst h2
            omega
          · rw [if_neg hc2] at h2
            simp only [Option.some.injEq] at h1 h2
            subst h1; subst h2
            omega
  · intro s e h1 h2
    unfold setRange at h1 h2
    rw [hr] at h1 h2
    simp only [Bool.not_true, Bool.false_eq_true, if_false] at h1 h2
    cases input with
    | null =>
      rw [(confirmWrite_rangeFields _ _ _).2] at h2
      simp at h2
    | str v =>
      rw [(confirmWrite_rangeFields _ _ _).1, (applyRangeAssign_fields _ _ _).1] at h1
      rw [(confirmWrite_rangeFields _ _ _).2, (applyRangeAssign_fields _ _ _).2.1] at h2
      exact setRangeEndpoints_le st.options _ _ s e h1 h2
    | arr a b =>
      rw [(confirmWrite_rangeFields _ _ _).1, (applyRangeAssign_fields _ _ _).1] at h1
      rw [(confirmWrite_rangeFields _ _ _).2, (applyRangeAssign_fields _ _ _).2.1] at h2
      exact setRangeEndpoints_le st.options _ _ s e h1 h2
    | obj a b =>
      rw [(confirmWrite_rangeFields _ _ _).1, (applyRangeAssign_fields _ _ _).1] at h1
      rw [(confirmWrite_rangeFields _ _ _).2, (applyRangeAssign_fields _ _ _).2.1] at h2
      exact setRangeEndpoints_le st.options _ _ s e h1 h2

theorem range_start_le_end_witness :
    (handleRangeClick pendingRangeState ⟨2024, 3, 10, 0, 0⟩).1.rangeStart
        = some ⟨2024, 3, 10, 0, 0⟩ ∧
    (handleRangeClick pendingRangeState ⟨2024, 3, 10, 0, 0⟩).1.rangeEnd
        = some ⟨2024, 3, 15, 0, 0⟩ ∧
    epochMinutes (⟨2024, 3, 10, 0, 0⟩ : JDate)
      ≤ epochMinutes (⟨2024, 3, 15, 0, 0⟩ : JDate) := by
  refine ⟨by decide, by decide, ?_⟩
  exact (range_start_le_end pendingRangeState ⟨2024, 3, 10, 0, 0⟩ RangeInput.null
    Source.api (by decide)).1 ⟨2024, 3, 10, 0, 0⟩ ⟨2024, 3, 15, 0, 0⟩
    (by decide) (by decide)

/-- C6, counterexample: in RANGE mode, `setDate` with an out-of-bounds date
is not a no-op — it delegates to `setRange`, which drops the rejected
endpoint, thereby CLEARING the stored start, and still fires the range
notification callback. -/
theorem setDate_outOfBounds_counterexample :
    (setDate boundedRangeState (some ⟨2025, 1, 1, 0, 0⟩) Source.api).1.rangeStart = none ∧
    boundedRangeState.rangeStart = some ⟨2024, 3, 10, 0, 0⟩ ∧
    (setDate boundedRangeState (some ⟨2025, 1, 1, 0, 0⟩) Source.api).2 ≠ [] := by
  refine ⟨by decide, by decide, by decide⟩

/-- C6 (amended): outside range mode, attempting to select an out-of-bounds
or predicate-disabled date via `setDate` is a complete no-op: the state
(selection, bound field, view) is unchanged and no notification callback is
invoked.  In range mode `setDate` instead delegates to `setRange`, which
drops the rejected endpoint and still notifies (see the counterexample). -/
theorem setDate_rejects_outOfBounds (st : PickerState) (d : JDate) (src : Source)
    (hr : st.options.range = false)
    (hob : isDateOutOfBounds (normalizeDate st.options d) st.options.minDate
        st.options.maxDate = true
      ∨ isDisabledByFn st.options (normalizeDate st.options d) = true) :
    setDate st (some d) src = (st, []) := by
  unfold setDate
  rw [hr]
  simp only [Bool.false_eq_true, if_false]
  rcases hob with h | h
  · rw [if_pos h]
  · by_cases h1 : isDateOutOfBounds (normalizeDate st.options d) st.options.minDate
        st.options.maxDate = true
    · rw [if_pos h1]
    · rw [if_neg h1, if_pos h]

theorem setDate_rejects_outOfBounds_witness :
    boundedSingleState.options.range = false ∧
    (isDateOutOfBounds (normalizeDate boundedSingleState.options ⟨2025, 1, 1, 0, 0⟩)
        boundedSingleState.options.minDate boundedSingleState.options.maxDate = true) ∧
    setDate boundedSingleState (some ⟨2025, 1, 1, 0, 0⟩) Source.api
        = (boundedSingleState, []) :=
  ⟨by decide, by decide,
    setDate_rejects_outOfBounds boundedSingleState ⟨2025, 1, 1, 0, 0⟩ Source.api
      (by decide) (Or.inl (by decide))⟩

/-- C7, counterexample: in confirm mode a selection change leaves the bound
field untouched, but the notification callback IS fired at change time — it
is not deferred to the commit action as claimed. -/
theorem confirm_callback_counterexample :
    (applySelection confirmSingleState ⟨2024, 3, 15, 0, 0⟩ Source.user).2 ≠ [] ∧
    (applySelection confirmSingleState ⟨2024, 3, 15, 0, 0⟩ Source.user).1.inputValue
      = confirmSingleState.inputValue := by
  refine ⟨by decide, by decide⟩

/-- C7 (amended): when confirm mode is active, a selection change defers only
the bound-field WRITE-BACK to the commit action; the notification callback
still fires synchronously at change time (with the change's source tag), and
the commit action then writes the field and fires the callback again with
source `'confirm'`. -/
theorem confirm_defers_write_not_callback (st : PickerState) (dt : JDate)
    (src : Source) (hc : st.options.confirm = true) :
    (applySelection st dt src).1.inputValue = st.inputValue ∧
    (st.options.hasOnSelect = true →
      (applySelection st dt src).2
        = [Event.select (some dt) (formatDate dt st.options.format) src]) ∧
    (st.options.scheduleMode = ScheduleMode.off → st.options.range = false →
      st.selectedDate = some dt →
      (commitValue st).1.inputValue = formatDate dt st.options.format ∧
      (st.options.hasOnSelect = true →
        (commitValue st).2
          = [Event.select (some dt) (formatDate dt st.options.format) Source.confirm])) := by
  refine ⟨?_, ?_, ?_⟩
  · unfold applySelection
    rw [hc]
    simp
  · intro hh
    unfold applySelection
    rw [hh]
    simp
  · intro hsm hrg hsel
    unfold commitValue
    rw [hc, hsm, hrg, hsel]
    constructor
    · simp
    · intro hh
      rw [hh]
      simp

theorem confirm_defers_write_not_callback_witness :
    confirmSelectedState.options.confirm = true ∧
    (applySelection confirmSelectedState ⟨2024, 3, 15, 0, 0⟩ Source.user).1.inputValue
      = confirmSelectedState.inputValue ∧
    (commitValue confirmSelectedState).1.inputValue
      = formatDate ⟨2024, 3, 15, 0, 0⟩ confirmSelectedState.options.format := by
  refine ⟨by decide, ?_, ?_⟩
  · exact (confirm_defers_write_not_callback confirmSelectedState ⟨2024, 3, 15, 0, 0⟩
      Source.user (by decide)).1
  · exact ((confirm_defers_write_not_callback confirmSelectedState ⟨2024, 3, 15, 0, 0⟩
      Source.user (by decide)).2.2 (by decide) (by decide) (by decide)).1

theorem clampMinuteToStep_spec_witness :
    0 ≤ (7 : Int) ∧
    (((5 : Int) < 0 → clampMinuteToStep 7 5 = 7) ∧
     (clampMinuteToStep 7 0 = clampMinuteToStep 7 5) ∧
     (0 < (5 : Int) → ∃ N, (5 : Int) ∣ N ∧ 0 ≤ N ∧
        2 * ((7 : Int) - N).natAbs ≤ (5 : Int).natAbs ∧
        (∀ t : Int, ((7 : Int) - N).natAbs ≤ ((7 : Int) - t * 5).natAbs) ∧
        (∀ t : Int, ((7 : Int) - t * 5).natAbs = ((7 : Int) - N).natAbs → N ≤ t * 5) ∧
        clampMinuteToStep 7 5 = N.tmod 60)) :=
  ⟨by decide, clampMinuteToStep_spec 7 5 (by decide)⟩

/-- C8: calendar-mode grid generation always yields exactly 42 cells; cell
`i` carries the date `startOfWeek(startOfMonth(view), firstDayOfWeek) + i`
days, and turning `showOutsideDays` off only replaces outside-month cells by
date-less placeholders without changing the 42-slot layout. -/
theorem calendarGrid_spec (st : PickerState) (today : JDate) :
    (buildCalendarGrid st today).length = 42 ∧
    (∀ i : Nat, i < 42 →
      ((buildCalendarGrid st today)[i]?).map cellDate
        = some (if st.options.showOutsideDays = false ∧
              (addDays (startOfWeek (startOfMonth st.currentViewMonth)
                 st.options.firstDayOfWeek) i).month ≠ st.currentViewMonth.month
           then none
           else some (addDays (startOfWeek (startOfMonth st.currentViewMonth)
              st.options.firstDayOfWeek) i))) := by
  constructor
  · simp [buildCalendarGrid]
  · intro i hi
    dsimp only [buildCalendarGrid]
    rw [List.getElem?_map, List.getElem?_range hi]
    unfold buildCell
    by_cases hso : st.options.showOutsideDays <;>
      by_cases hm : (addDays (startOfWeek (startOfMonth st.currentViewMonth)
          st.options.firstDayOfWeek) i).month = st.currentViewMonth.month <;>
      simp [hso, hm, cellDate]

theorem calendarGrid_spec_witness :
    (0 : Nat) < 42 ∧
    (buildCalendarGrid (mkState sampleOptions) ⟨2024, 3, 15, 0, 0⟩).length = 42 ∧
    ((buildCalendarGrid (mkState sampleOptions) ⟨2024, 3, 15, 0, 0⟩)[0]?).map cellDate
      = some (some (addDays (startOfWeek (startOfMonth
          (mkState sampleOptions).currentViewMonth)
          (mkState sampleOptions).options.firstDayOfWeek) 0)) := by
  refine ⟨by decide, (calendarGrid_spec (mkState sampleOptions) ⟨2024, 3, 15, 0, 0⟩).1, ?_⟩
  rw [(calendarGrid_spec (mkState sampleOptions) ⟨2024, 3, 15, 0, 0⟩).2 0 (by decide)]
  rw [if_neg (by decide)]
  norm_num

/-! ### Decimal rendering lemmas (for claim C1) -/

theorem digitChar_isDigit (k : Nat) (h : k < 10) :
    (Nat.digitChar k).isDigit = true := by
  interval_cases k <;> decide

theorem charDigitVal_digitChar (k : Nat) (h : k < 10) :
    charDigitVal (Nat.digitChar k) = k := by
  interval_cases k <;> decide

theorem decDigitsGo_acc (fuel : Nat) : ∀ (n : Nat) (acc : List Char),
    decDigitsGo fuel n acc = decDigitsGo fuel n [] ++ acc := by
  induction fuel with
  | zero => intro n acc; simp [decDigitsGo]
  | succ f ih =>
    intro n acc
    by_cases h : n < 10
    · simp [decDigitsGo, h]
    · simp only [decDigitsGo, if_neg h]
      rw [ih (n / 10) (Nat.digitChar (n % 10) :: acc),
        ih (n / 10) [Nat.digitChar (n % 10)]]
      simp

theorem decDigitsGo_fuel (fuel : Nat) : ∀ (fuel' n : Nat) (acc : List Char),
    n < fuel → n < fuel' →
    decDigitsGo fuel n acc = decDigitsGo fuel' n acc := by
  induction fuel with
  | zero => intro fuel' n acc h1 h2; omega
  | succ f ih =>
    intro fuel' n acc h1 h2
    match fuel', h2 with
    | f' + 1, h2 =>
      by_cases h : n < 10
      · simp [decDigitsGo, h]
      · simp only [decDigitsGo, if_neg h]
        exact ih f' (n / 10) _ (by omega) (by omega)

theorem decDigits_lt10 (n : Nat) (h : n < 10) :
    decDigits n = [Nat.digitChar n] := by
  simp [decDigits, decDigitsGo, h]

theorem decDigits_step (n : Nat) (h : 10 ≤ n) :
    decDigits n = decDigits (n / 10) ++ [Nat.digitChar (n % 10)] := by
  unfold decDigits
  rw [show n + 1 = n + 1 from rfl]
  conv_lhs => rw [decDigitsGo]
  rw [if_neg (by omega)]
  rw [decDigitsGo_acc]
  rw [decDigitsGo_fuel n (n / 10 + 1) (n / 10) [] (by omega) (by omega)]

theorem decDigits2 (n : Nat) (h1 : 10 ≤ n) (h2 : n < 100) :
    decDigits n = [Nat.digitChar (n / 10), Nat.digitChar (n % 10)] := by
  rw [decDigits_step n h1, decDigits_lt10 (n / 10) (by omega)]
  rfl

theorem pad2_eq (n : Nat) (h : n < 100) :
    pad2 n = [Nat.digitChar (n / 10), Nat.digitChar (n % 10)] := by
  unfold pad2 padStart2
  by_cases h10 : n < 10
  · rw [decDigits_lt10 n h10]
    have e1 : n / 10 = 0 := by omega
    have e2 : n % 10 = n := by omega
    simp [e1, e2]
    rfl
  · rw [decDigits2 n (by omega) h]
    simp

theorem decDigits4 (n : Nat) (h1 : 1000 ≤ n) (h2 : n < 10000) :
    decDigits n = [Nat.digitChar (n / 1000), Nat.digitChar (n / 100 % 10),
      Nat.digitChar (n / 10 % 10), Nat.digitChar (n % 10)] := by
  rw [decDigits_step n (by omega), decDigits_step (n / 10) (by omega),
    decDigits_step (n / 10 / 10) (by omega),
    decDigits_lt10 (n / 10 / 10 / 10) (by omega)]
  have e2 : n / 10 / 10 / 10 = n / 1000 := by omega
  have e3 : n / 10 / 10 % 10 = n / 100 % 10 := by omega
  rw [e2, e3]
  rfl

theorem decDigits_ne_nil (n : Nat) : decDigits n ≠ [] := by
  unfold decDigits
  rw [decDigitsGo]
  by_cases h : n < 10
  · simp [h]
  · rw [if_neg h, decDigitsGo_acc]
    simp

theorem pad2_ne_nil (n : Nat) : pad2 n ≠ [] := by
  unfold pad2 padStart2
  split
  · exact decDigits_ne_nil n
  · simp [decDigits_ne_nil n]

theorem renderItem_ne_nil (d : JDate) (it : PItem) : renderItem d it ≠ [] := by
  cases it with
  | tokY =>
    show intToChars d.year ≠ []
    unfold intToChars
    split
    · simp
    · exact decDigits_ne_nil _
  | tokM => exact pad2_ne_nil _
  | tokD => exact pad2_ne_nil _
  | tokH => exact pad2_ne_nil _
  | tokh => exact pad2_ne_nil _
  | tokm => exact pad2_ne_nil _
  | tokA =>
    show (if d.hour ≥ 12 then ['P', 'M'] else ['A', 'M']) ≠ []
    split <;> simp
  | lit c => simp [renderItem]

/-- The capture groups of the aligned match, field by field. -/
theorem applyP_fields (d : JDate) (p : Pattern) : ∀ g : Groups,
    (applyP d p g).year = (if PItem.tokY ∈ p then some d.year.toNat else g.year) ∧
    (applyP d p g).month = (if PItem.tokM ∈ p then some d.month else g.month) ∧
    (applyP d p g).day = (if PItem.tokD ∈ p then some d.day else g.day) ∧
    (applyP d p g).hour24 = (if PItem.tokH ∈ p then some d.hour else g.hour24) ∧
    (applyP d p g).hour12 = (if PItem.tokh ∈ p then some (hour12Of d.hour) else g.hour12) ∧
    (applyP d p g).minute = (if PItem.tokm ∈ p then some d.minute else g.minute) ∧
    (applyP d p g).ampm = (if PItem.tokA ∈ p then
        some (if d.hour ≥ 12 then ('P', 'M') else ('A', 'M')) else g.ampm) := by
  induction p with
  | nil => intro g; simp [applyP]
  | cons it rest ih =>
    intro g
    cases it <;> simp [applyP, ih, List.mem_cons]

/-- On the string `formatDate` produces, the matcher succeeds and captures
exactly the formatted field values (greedy matching consumes the aligned
two-digit renderings first, and the four-digit year aligns with `\d{4}`). -/
theorem mrun_format (d : JDate) (hv : ValidDate d)
    (hy1 : 1000 ≤ d.year) (hy2 : d.year ≤ 9999) :
    ∀ (p : Pattern) (g : Groups),
      mrun p (formatDate d p) g = some (applyP d p g) := by
  obtain ⟨hm1, hm2, hd1, hd2, hh23, hmin59⟩ := hv
  have hd31 : d.day ≤ 31 := le_trans hd2 (daysInMonth_bounds d.year d.month).2
  have hm100 : d.month < 100 := by omega
  have hd100 : d.day < 100 := by omega
  have hh100 : d.hour < 100 := by omega
  have hmin100 : d.minute < 100 := by omega
  have h12b : hour12Of d.hour < 100 := by unfold hour12Of; split <;> omega
  intro p
  induction p with
  | nil => intro g; rfl
  | cons it rest ih =>
    intro g
    cases it with
    | lit c =>
      rw [show formatDate d (.lit c :: rest) = c :: formatDate d rest from by
        rw [formatDate]; rfl]
      simp only [mrun, beq_self_eq_true, if_true]
      exact ih g
    | tokY =>
      have hyn1 : 1000 ≤ d.year.toNat := by omega
      have hyn2 : d.year.toNat < 10000 := by omega
      rw [show formatDate d (.tokY :: rest)
          = Nat.digitChar (d.year.toNat / 1000) :: Nat.digitChar (d.year.toNat / 100 % 10)
            :: Nat.digitChar (d.year.toNat / 10 % 10) :: Nat.digitChar (d.year.toNat % 10)
            :: formatDate d rest from by
        rw [formatDate]
        show intToChars d.year ++ formatDate d rest = _
        unfold intToChars
        rw [if_neg (by omega : ¬ d.year < 0), decDigits4 d.year.toNat hyn1 hyn2]
        rfl]
      simp only [mrun]
      rw [digitChar_isDigit _ (by omega), digitChar_isDigit _ (by omega),
          digitChar_isDigit _ (by omega), digitChar_isDigit _ (by omega)]
      have hval : val4 (Nat.digitChar (d.year.toNat / 1000))
          (Nat.digitChar (d.year.toNat / 100 % 10))
          (Nat.digitChar (d.year.toNat / 10 % 10)) (Nat.digitChar (d.year.toNat % 10))
          = d.year.toNat := by
        unfold val4
        rw [charDigitVal_digitChar _ (by omega), charDigitVal_digitChar _ (by omega),
            charDigitVal_digitChar _ (by omega), charDigitVal_digitChar _ (by omega)]
        omega
      simp only [Bool.and_self, if_true, hval]
      rw [ih]
      rfl
    | tokM =>
      rw [show formatDate d (.tokM :: rest)
          = Nat.digitChar (d.month / 10) :: Nat.digitChar (d.month % 10)
            :: formatDate d rest from by
        rw [formatDate]
        show pad2 d.month ++ formatDate d rest = _
        rw [pad2_eq d.month hm100]
        rfl]
      simp only [mrun]
      rw [digitChar_isDigit _ (by omega), digitChar_isDigit _ (by omega)]
      have hval : val2 (Nat.digitChar (d.month / 10)) (Nat.digitChar (d.month % 10))
          = d.month := by
        unfold val2
        rw [charDigitVal_digitChar _ (by omega), charDigitVal_digitChar _ (by omega)]
        omega
      simp only [Bool.and_self, if_true, hval]
      rw [ih]
      rfl
    | tokD =>
      rw [show formatDate d (.tokD :: rest)
          = Nat.digitChar (d.day / 10) :: Nat.digitChar (d.day % 10)
            :: formatDate d rest from by
        rw [formatDate]
        show pad2 d.day ++ formatDate d rest = _
        rw [pad2_eq d.day hd100]
        rfl]
      simp only [mrun]
      rw [digitChar_isDigit _ (by omega), digitChar_isDigit _ (by omega)]
      have hval : val2 (Nat.digitChar (d.day / 10)) (Nat.digitChar (d.day % 10))
          = d.day := by
        unfold val2
        rw [charDigitVal_digitChar _ (by omega), charDigitVal_digitChar _ (by omega)]
        omega
      simp only [Bool.and_self, if_true, hval]
      rw [ih]
      rfl
    | tokH =>
      rw [show formatDate d (.tokH :: rest)
          = Nat.digitChar (d.hour / 10) :: Nat.digitChar (d.hour % 10)
            :: formatDate d rest from by
        rw [formatDate]
        show pad2 d.hour ++ formatDate d rest = _
        rw [pad2_eq d.hour hh100]
        rfl]
      simp only [mrun]
      rw [digitChar_isDigit _ (by omega), digitChar_isDigit _ (by omega)]
      have hval : val2 (Nat.digitChar (d.hour / 10)) (Nat.digitChar (d.hour % 10))
          = d.hour := by
        unfold val2
        rw [charDigitVal_digitChar _ (by omega), charDigitVal_digitChar _ (by omega)]
        omega
      simp only [Bool.and_self, if_true, hval]
      rw [ih]
      rfl
    | tokh =>
      rw [show formatDate d (.tokh :: rest)
          = Nat.digitChar (hour12Of d.hour / 10) :: Nat.digitChar (hour12Of d.hour % 10)
            :: formatDate d rest from by
        rw [formatDate]
        show pad2 (hour12Of d.hour) ++ formatDate d rest = _
        rw [pad2_eq (hour12Of d.hour) h12b]
        rfl]
      simp only [mrun]
      rw [digitChar_isDigit _ (by omega), digitChar_isDigit _ (by omega)]
      have hval : val2 (Nat.digitChar (hour12Of d.hour / 10))
          (Nat.digitChar (hour12Of d.hour % 10)) = hour12Of d.hour := by
        unfold val2
        rw [charDigitVal_digitChar _ (by omega), charDigitVal_digitChar _ (by omega)]
        omega
      simp only [Bool.and_self, if_true, hval]
      rw [ih]
      rfl
    | tokm =>
      rw [show formatDate d (.tokm :: rest)
          = Nat.digitChar (d.minute / 10) :: Nat.digitChar (d.minute % 10)
            :: formatDate d rest from by
        rw [formatDate]
        show pad2 d.minute ++ formatDate d rest = _
        rw [pad2_eq d.minute hmin100]
        rfl]
      simp only [mrun]
      rw [digitChar_isDigit _ (by omega), digitChar_isDigit _ (by omega)]
      have hval : val2 (Nat.digitChar (d.minute / 10)) (Nat.digitChar (d.minute % 10))
          = d.minute := by
        unfold val2
        rw [charDigitVal_digitChar _ (by omega), charDigitVal_digitChar _ (by omega)]
        omega
      simp only [Bool.and_self, if_true, hval]
      rw [ih]
      rfl
    | tokA =>
      by_cases hpm : d.hour ≥ 12
      · rw [show formatDate d (.tokA :: rest) = 'P' :: 'M' :: formatDate d rest from by
          rw [formatDate]
          show (if d.hour ≥ 12 then ['P', 'M'] else ['A', 'M']) ++ formatDate d rest = _
          rw [if_pos hpm]
          rfl]
        simp only [mrun]
        rw [show isAmpmPair 'P' 'M' = true from by decide]
        simp only [if_true]
        rw [ih]
        conv_rhs => rw [applyP]
        rw [if_pos hpm]
      · rw [show formatDate d (.tokA :: rest) = 'A' :: 'M' :: formatDate d rest from by
          rw [formatDate]
          show (if d.hour ≥ 12 then ['P', 'M'] else ['A', 'M']) ++ formatDate d rest = _
          rw [if_neg hpm]
          rfl]
        simp only [mrun]
        rw [show isAmpmPair 'A' 'M' = true from by decide]
        simp only [if_true]
        rw [ih]
        conv_rhs => rw [applyP]
        rw [if_neg hpm]

/-- C1, counterexample: with the pattern `yyyy-MM-dd hh:mm` (the 12-hour
token `hh` without the meridiem token `a`) the date 2024-03-15 13:05 formats
to `2024-03-15 01:05`, which parses back with hour 1, not 13 — the hour is
lost modulo 12, so the round-trip law fails for this valid (date, pattern)
pair. -/
theorem parse_format_counterexample :
    formatDate sampleAfternoon patternYmdh12m
      = ['2', '0', '2', '4', '-', '0', '3', '-', '1', '5', ' ', '0', '1', ':', '0', '5'] ∧
    parseDate (formatDate sampleAfternoon patternYmdh12m) patternYmdh12m
      = some ⟨2024, 3, 15, 1, 5⟩ ∧
    sampleAfternoon.hour = 13 ∧ (1 : Nat) ≠ 13 := by
  refine ⟨by decide, by decide, by decide, by decide⟩

/-- C1 (amended): for every valid date with a four-digit year (the year is
formatted unpadded, so only 1000–9999 matches the parser's `\d{4}`), and
every pattern that contains `yyyy`, `MM` and `dd`, uses each token at most
once (the parser's regex construction throws on repeated named groups), and
uses `hh` only together with `a`, parsing the formatted string with the same
pattern reproduces the calendar date exactly; the hour is reproduced iff an
hour token (`HH`, or `hh` with `a`) is present (otherwise it parses as 0) and
the minute iff `mm` is present. -/
theorem parse_format_roundtrip (d : JDate) (p : Pattern)
    (hv : ValidDate d) (hy1 : 1000 ≤ d.year) (hy2 : d.year ≤ 9999)
    (hwf : WFPattern p)
    (hY : PItem.tokY ∈ p) (hM : PItem.tokM ∈ p) (hD : PItem.tokD ∈ p)
    (hhA : PItem.tokh ∈ p → PItem.tokA ∈ p) :
    parseDate (formatDate d p) p
      = some ⟨d.year, d.month, d.day,
          (if PItem.tokH ∈ p ∨ PItem.tokh ∈ p then d.hour else 0),
          (if PItem.tokm ∈ p then d.minute else 0)⟩ := by
  obtain ⟨hm1, hm2, hd1, hd2, hh23, hmin59⟩ := hv
  unfold parseDate
  have hne : (formatDate d p).isEmpty = false := by
    cases p with
    | nil => simp at hY
    | cons it rest =>
      rw [formatDate]
      cases hri : renderItem d it with
      | nil => exact absurd hri (renderItem_ne_nil d it)
      | cons a as => rfl
  rw [hne]
  simp only [Bool.false_eq_true, if_false]
  rw [mrun_format d ⟨hm1, hm2, hd1, hd2, hh23, hmin59⟩ hy1 hy2 p {}]
  dsimp only
  obtain ⟨hfy, hfm, hfd, hfH, hfh, hfmin, hfA⟩ := applyP_fields d p {}
  rw [if_pos hY] at hfy
  rw [if_pos hM] at hfm
  rw [if_pos hD] at hfd
  rw [hfy, hfm, hfd]
  dsimp only
  rw [hfmin, hfH]
  by_cases hH : PItem.tokH ∈ p
  · rw [if_pos hH, if_pos (Or.inl hH)]
    dsimp only
    by_cases hm' : PItem.tokm ∈ p
    · rw [if_pos hm', if_pos hm']
      dsimp only
      rw [show min 23 d.hour = d.hour from by omega,
        show min 59 d.minute = d.minute from by omega,
        show ((d.year.toNat : Int)) = d.year from by omega,
        mkDate_inRange d.year d.month d.day d.hour d.minute ⟨hm1, hm2⟩ ⟨hd1, hd2⟩
          (by omega) (by omega)]
    · rw [if_neg hm', if_neg hm']
      dsimp only
      rw [show min 23 d.hour = d.hour from by omega,
        show ((d.year.toNat : Int)) = d.year from by omega,
        mkDate_inRange d.year d.month d.day d.hour 0 ⟨hm1, hm2⟩ ⟨hd1, hd2⟩
          (by omega) (by omega)]
  · rw [if_neg hH]
    dsimp only
    rw [hfh]
    by_cases hh12 : PItem.tokh ∈ p
    · rw [if_pos hh12, if_pos (Or.inr hh12)]
      rw [hfA, if_pos (hhA hh12)]
      dsimp only
      have hclamp : min 12 (max 1 (hour12Of d.hour)) = hour12Of d.hour := by
        unfold hour12Of; split <;> omega
      rw [hclamp]
      by_cases hpm : d.hour ≥ 12
      · rw [if_pos hpm]
        rw [show isPmGroup (some ('P', 'M')) = true from by decide]
        simp only [if_true]
        have hhrec : hour12Of d.hour % 12 + 12 = d.hour := by
          unfold hour12Of; split <;> omega
        rw [hhrec]
        by_cases hm' : PItem.tokm ∈ p
        · rw [if_pos hm', if_pos hm']
          dsimp only
          rw [show min 59 d.minute = d.minute from by omega,
            show ((d.year.toNat : Int)) = d.year from by omega,
            mkDate_inRange d.year d.month d.day d.hour d.minute ⟨hm1, hm2⟩ ⟨hd1, hd2⟩
              (by omega) (by omega)]
        · rw [if_neg hm', if_neg hm']
          dsimp only
          rw [show ((d.year.toNat : Int)) = d.year from by omega,
            mkDate_inRange d.year d.month d.day d.hour 0 ⟨hm1, hm2⟩ ⟨hd1, hd2⟩
              (by omega) (by omega)]
      · rw [if_neg hpm]
        rw [show isPmGroup (some ('A', 'M')) = false from by decide]
        simp only [Bool.false_eq_true, if_false]
        have hhrec : hour12Of d.hour % 12 = d.hour := by
          unfold hour12Of; split <;> omega
        rw [hhrec]
        by_cases hm' : PItem.tokm ∈ p
        · rw [if_pos hm', if_pos hm']
          dsimp only
          rw [show min 59 d.minute = d.minute from by omega,
            show ((d.year.toNat : Int)) = d.year from by omega,
            mkDate_inRange d.year d.month d.day d.hour d.minute ⟨hm1, hm2⟩ ⟨hd1, hd2⟩
              (by omega) (by omega)]
        · rw [if_neg hm', if_neg hm']
          dsimp only
          rw [show ((d.year.toNat : Int)) = d.year from by omega,
            mkDate_inRange d.year d.month d.day d.hour 0 ⟨hm1, hm2⟩ ⟨hd1, hd2⟩
              (by omega) (by omega)]
    · rw [if_neg hh12, if_neg (by tauto : ¬ (PItem.tokH ∈ p ∨ PItem.tokh ∈ p))]
      dsimp only
      by_cases hm' : PItem.tokm ∈ p
      · rw [if_pos hm', if_pos hm']
        dsimp only
        rw [show min 59 d.minute = d.minute from by omega,
          show ((d.year.toNat : Int)) = d.year from by omega,
          mkDate_inRange d.year d.month d.day 0 d.minute ⟨hm1, hm2⟩ ⟨hd1, hd2⟩
            (by omega) (by omega)]
      · rw [if_neg hm', if_neg hm']
        dsimp only
        rw [show ((d.year.toNat : Int)) = d.year from by omega,
          mkDate_inRange d.year d.month d.day 0 0 ⟨hm1, hm2⟩ ⟨hd1, hd2⟩
            (by omega) (by omega)]

theorem parse_format_roundtrip_witness :
    (ValidDate sampleAfternoon ∧ 1000 ≤ sampleAfternoon.year ∧
     sampleAfternoon.year ≤ 9999 ∧ WFPattern patternYmdHm ∧
     PItem.tokY ∈ patternYmdHm ∧ PItem.tokM ∈ patternYmdHm ∧
     PItem.tokD ∈ patternYmdHm) ∧
    parseDate (formatDate sampleAfternoon patternYmdHm) patternYmdHm
      = some ⟨sampleAfternoon.year, sampleAfternoon.month, sampleAfternoon.day,
          (if PItem.tokH ∈ patternYmdHm ∨ PItem.tokh ∈ patternYmdHm
           then sampleAfternoon.hour else 0),
          (if PItem.tokm ∈ patternYmdHm then sampleAfternoon.minute else 0)⟩ :=
  ⟨⟨by decide, by decide, by decide, by decide, by decide, by decide, by decide⟩,
    parse_format_roundtrip sampleAfternoon patternYmdHm (by decide) (by decide)
      (by decide) (by decide) (by decide) (by decide) (by decide) (by decide)⟩

end Datepicker
